import Mathlib

/-!
Shallow embedding of the context-aware instruction encoding core of the zasm
x86/x86-64 assembler library (`src/zasm/src/encoder/encoder.cpp`).

The byte-level Zydis encoder (`ZydisEncoderEncodeInstruction`) is an external
dependency whose sources are not part of this repository; it is abstracted as
a parameter `byteEncoder : ZydisEncoderRequest → Option Nat` returning the
encoded length on success and `none` on failure (mapped by the core to
`Error.impossibleInstruction`).  The byte buffer contents are produced by that
external encoder and are not modelled; only the length is.

Machine integers (`std::int64_t`, `std::int32_t`, register/label ids) are
modelled as `Int`; none of the modelled arithmetic overflows in the source
paths covered here (displacement arithmetic is plain `int64_t` arithmetic).
-/

namespace Zasm

/-- Zydis branch-type hint (`ZydisBranchType`), restricted to the values the
encoder core uses. -/
inductive BranchType where
  | none
  | short
  | near
deriving DecidableEq, Repr

/-- `zasm::RelocationType`. -/
inductive RelocationType where
  | none
  | abs
  | rel32
deriving DecidableEq, Repr

/-- `zasm::RelocationData`. -/
inductive RelocationData where
  | none
  | immediate
  | memory
deriving DecidableEq, Repr

/-- `zasm::MachineMode`. -/
inductive MachineMode where
  | i386
  | amd64
deriving DecidableEq, Repr

/-- `ZydisMachineMode`, restricted to the two values the core produces. -/
inductive ZyMachineMode where
  | long64
  | longCompat32
deriving DecidableEq, Repr

/-- `ZydisOperandSizeHint`. -/
inductive OperandSizeHint where
  | none
  | h8
  | h16
  | h32
  | h64
deriving DecidableEq, Repr

set_option maxHeartbeats 1600000 in
/-- Mnemonics (`ZydisMnemonic`) relevant to the encoder core: the control-flow
mnemonics of the variant table, `MOV` (special-cased for label immediates),
the is4-fixup mnemonic set, and a catch-all `other` for every remaining
mnemonic id. -/
inductive Mnemonic where
  | invalid
  | jmp | jb | jbe | jcxz | jecxz | jknzd | jkzd | jrcxz
  | jl | jle | jnb | jnbe | jnl | jnle | jno | jnp | jns | jnz
  | jo | jp | js | jz
  | loop | loope | loopne
  | call
  | mov
  | vblendvpd | vblendvps
  | vfmaddpd | vfmaddps | vfmaddsd | vfmaddss
  | vfmaddsubpd | vfmaddsubps
  | vfmsubaddpd | vfmsubaddps
  | vfmsubpd | vfmsubps | vfmsubsd | vfmsubss
  | vfnmaddpd | vfnmaddps | vfnmaddsd | vfnmaddss
  | vfnmsubpd | vfnmsubps | vfnmsubsd | vfnmsubss
  | vpblendvb | vpcmov
  | vpermil2pd | vpermil2ps
  | vpmacsdd | vpmacsdqh | vpmacsdql
  | vpmacssdd | vpmacssdqh | vpmacssdql
  | vpmacssww | vpmacsswd | vpmacswd | vpmacsww
  | vpmadcsswd | vpmadcswd | vpperm
  | other (id : Nat)
deriving Repr

-- NOTE: This value has to be at least larger than 0xFFFF to be used with
-- imm32/rel32 displacement.
def kTemporaryRel32Value : Int := 0x123456

def kTemporaryRel8Value : Int := 0x44

def kHintRequiresSize : Int := -1

/-- `Label::Id::Invalid`. -/
def labelIdInvalid : Int := -1

/-- Register id constants (`ZydisRegister`); only pairwise distinctness and
identity of these particular registers matter to the core. -/
def ZYDIS_REGISTER_NONE : Int := 0

def ZYDIS_REGISTER_RIP : Int := 172

def ZYDIS_REGISTER_FS : Int := 158

def ZYDIS_REGISTER_GS : Int := 159

/-- Zydis prefix attribute bits (nominal distinct bit values). -/
def ZYDIS_ATTRIB_HAS_LOCK : Nat := 1
def ZYDIS_ATTRIB_HAS_REP : Nat := 2
def ZYDIS_ATTRIB_HAS_REPE : Nat := 4
def ZYDIS_ATTRIB_HAS_REPNE : Nat := 8
def ZYDIS_ATTRIB_HAS_BND : Nat := 16
def ZYDIS_ATTRIB_HAS_XACQUIRE : Nat := 32
def ZYDIS_ATTRIB_HAS_XRELEASE : Nat := 64
def ZYDIS_ATTRIB_HAS_SEGMENT_FS : Nat := 128
def ZYDIS_ATTRIB_HAS_SEGMENT_GS : Nat := 256

/-- `struct EncodeVariantsInfo`. -/
structure EncodeVariantsInfo where
  isControlFlow : Bool := false
  encodeSizeRel8 : Int := -1
  encodeSizeRel32 : Int := -1
deriving DecidableEq, Repr

def EncodeVariantsInfo.canEncodeRel8 (i : EncodeVariantsInfo) : Bool :=
  i.encodeSizeRel8 != -1

def EncodeVariantsInfo.canEncodeRel32 (i : EncodeVariantsInfo) : Bool :=
  i.encodeSizeRel32 != -1

/-- `buildEncodeVariantTable` / `getEncodeVariantInfo`: the dense table is
modelled as a total function; every mnemonic not assigned in
`buildEncodeVariantTable` keeps the zero-initialized default
`{ false, -1, -1 }`. -/
def getEncodeVariantInfo : Mnemonic → EncodeVariantsInfo
  | .jmp => { isControlFlow := true, encodeSizeRel8 := 2, encodeSizeRel32 := 5 }
  | .jb => { isControlFlow := true, encodeSizeRel8 := 2, encodeSizeRel32 := 6 }
  | .jbe => { isControlFlow := true, encodeSizeRel8 := 2, encodeSizeRel32 := 6 }
  | .jcxz => { isControlFlow := true, encodeSizeRel8 := 2, encodeSizeRel32 := -1 }
  | .jecxz => { isControlFlow := true, encodeSizeRel8 := 2, encodeSizeRel32 := -1 }
  | .jknzd => { isControlFlow := true, encodeSizeRel8 := 2, encodeSizeRel32 := -1 }
  | .jkzd => { isControlFlow := true, encodeSizeRel8 := 2, encodeSizeRel32 := -1 }
  | .jrcxz => { isControlFlow := true, encodeSizeRel8 := 2, encodeSizeRel32 := -1 }
  | .jl => { isControlFlow := true, encodeSizeRel8 := 2, encodeSizeRel32 := 6 }
  | .jle => { isControlFlow := true, encodeSizeRel8 := 2, encodeSizeRel32 := 6 }
  | .jnb => { isControlFlow := true, encodeSizeRel8 := 2, encodeSizeRel32 := 6 }
  | .jnbe => { isControlFlow := true, encodeSizeRel8 := 2, encodeSizeRel32 := 6 }
  | .jnl => { isControlFlow := true, encodeSizeRel8 := 2, encodeSizeRel32 := 6 }
  | .jnle => { isControlFlow := true, encodeSizeRel8 := 2, encodeSizeRel32 := 6 }
  | .jno => { isControlFlow := true, encodeSizeRel8 := 2, encodeSizeRel32 := 6 }
  | .jnp => { isControlFlow := true, encodeSizeRel8 := 2, encodeSizeRel32 := 6 }
  | .jns => { isControlFlow := true, encodeSizeRel8 := 2, encodeSizeRel32 := 6 }
  | .jnz => { isControlFlow := true, encodeSizeRel8 := 2, encodeSizeRel32 := 6 }
  | .jo => { isControlFlow := true, encodeSizeRel8 := 2, encodeSizeRel32 := 6 }
  | .jp => { isControlFlow := true, encodeSizeRel8 := 2, encodeSizeRel32 := 6 }
  | .js => { isControlFlow := true, encodeSizeRel8 := 2, encodeSizeRel32 := 6 }
  | .jz => { isControlFlow := true, encodeSizeRel8 := 2, encodeSizeRel32 := 6 }
  | .loop => { isControlFlow := true, encodeSizeRel8 := 2, encodeSizeRel32 := -1 }
  | .loope => { isControlFlow := true, encodeSizeRel8 := 2, encodeSizeRel32 := -1 }
  | .loopne => { isControlFlow := true, encodeSizeRel8 := 2, encodeSizeRel32 := -1 }
  | .call => { isControlFlow := true, encodeSizeRel8 := -1, encodeSizeRel32 := 5 }
  | _ => {}

/-- `zasm::LabelFlags` (bitset; nominal bit value for `External`). -/
def LabelFlagExternal : Nat := 2

/-- Per-label data held in `detail::ProgramState::labels` (only the flags are
relevant to the encoder). -/
structure LabelData where
  flags : Nat := 0
deriving DecidableEq, Repr

/-- `detail::ProgramState`, restricted to the label table the encoder reads. -/
structure ProgramState where
  labels : List LabelData := []
deriving DecidableEq, Repr

/-- `isLabelExternal`: out-of-range ids (including negative ids, whose
`size_t` cast in the source exceeds any table size) yield `false`. -/
def isLabelExternal (state : ProgramState) (labelId : Int) : Bool :=
  if labelId < 0 then false
  else
    match state.labels.get? labelId.toNat with
    | Option.none => false
    | some data => (data.flags &&& LabelFlagExternal) != 0

/-- `zasm::EncoderContext`.  `labelAddress` is modelled from the spec:
`EncoderContext::getLabelAddress` lives in `encoder.context.hpp`, which is not
under `src/`; per the program-state contract it returns the label's virtual
address when the label is placed and nothing otherwise. -/
structure EncoderContext where
  va : Int
  instrSize : Int
  program : ProgramState
  labelAddress : Int → Option Int
  needsExtraPass : Bool

/-- `zasm::Reg` (by numeric id). -/
structure Reg where
  id : Int
deriving DecidableEq, Repr

/-- `zasm::Imm` (signed 64-bit payload). -/
structure Imm where
  value : Int
deriving DecidableEq, Repr

/-- `zasm::Label` operand (symbolic reference by id). -/
structure Label where
  id : Int
deriving DecidableEq, Repr

/-- `zasm::Mem` operand. -/
structure Mem where
  base : Reg
  index : Reg
  scale : Nat
  byteSize : Nat
  displacement : Int
  labelId : Int := labelIdInvalid
  segment : Reg := ⟨0⟩
deriving DecidableEq, Repr

/-- `zasm::Operand` sum type. -/
inductive Operand where
  | none
  | reg (r : Reg)
  | imm (i : Imm)
  | label (l : Label)
  | mem (m : Mem)
deriving DecidableEq, Repr

/-- `x86::Attribs` flag set (each flag modelled as a boolean field). -/
structure Attribs where
  lock : Bool := false
  rep : Bool := false
  repe : Bool := false
  repne : Bool := false
  bnd : Bool := false
  xacquire : Bool := false
  xrelease : Bool := false
  operandSize8 : Bool := false
  operandSize16 : Bool := false
  operandSize32 : Bool := false
  operandSize64 : Bool := false
deriving DecidableEq, Repr

/-- `getAttribs`: translate `x86::Attribs` prefix flags to Zydis attribute
bits. -/
def getAttribs (attribs : Attribs) : Nat :=
  (if attribs.lock then ZYDIS_ATTRIB_HAS_LOCK else 0) |||
  (if attribs.rep then ZYDIS_ATTRIB_HAS_REP else 0) |||
  (if attribs.repe then ZYDIS_ATTRIB_HAS_REPE else 0) |||
  (if attribs.repne then ZYDIS_ATTRIB_HAS_REPNE else 0) |||
  (if attribs.bnd then ZYDIS_ATTRIB_HAS_BND else 0) |||
  (if attribs.xacquire then ZYDIS_ATTRIB_HAS_XACQUIRE else 0) |||
  (if attribs.xrelease then ZYDIS_ATTRIB_HAS_XRELEASE else 0)

/-- `ZydisEncoderOperand`: one request slot (flattened union; unused payload
fields keep their zero-initialized defaults, as in the zero-initialized
request). -/
inductive ZyOperandType where
  | unused
  | register
  | immediate
  | memory
deriving DecidableEq, Repr

structure ZyOperand where
  type : ZyOperandType := .unused
  regValue : Int := 0
  regIs4 : Bool := false
  immS : Int := 0
  memBase : Int := 0
  memIndex : Int := 0
  memScale : Nat := 0
  memSize : Nat := 0
  memDisplacement : Int := 0
deriving DecidableEq, Repr

/-- `ZydisEncoderRequest`, restricted to the fields the core populates. -/
structure ZydisEncoderRequest where
  machineMode : ZyMachineMode := .long64
  mnemonic : Mnemonic := .invalid
  prefixes : Nat := 0
  branchType : BranchType := .none
  operandSizeHint : OperandSizeHint := .none
  operandCount : Nat := 0
  operands : List ZyOperand := List.replicate 5 {}
deriving Repr

/-- `struct EncoderState`. -/
structure EncoderState where
  ctx : Option EncoderContext := Option.none
  req : ZydisEncoderRequest := {}
  operandIndex : Nat := 0
  relocKind : RelocationType := .none
  relocData : RelocationData := .none
  relocLabel : Int := labelIdInvalid

/-- `zasm::Error`, restricted to the outcomes the encoder produces. -/
inductive Error where
  | impossibleInstruction
deriving DecidableEq, Repr

/-- `zasm::EncoderResult` (the byte buffer contents come from the external
byte-level encoder and are not modelled; `length` is). -/
structure EncoderResult where
  length : Nat := 0
  relocKind : RelocationType := .none
  relocData : RelocationData := .none
  relocLabel : Int := labelIdInvalid
deriving DecidableEq, Repr

/-- `getRelativeAddress`. -/
def getRelativeAddress (address target instrSize : Int) : Int :=
  target - (address + instrSize)

/-- `processRelAddress`: choose short vs. near encoding for a control-flow
target.  The source asserts that the returned branch type is not `NONE`; the
model returns the pair unconditionally (the assert branch is represented by a
`BranchType.none` result). -/
def processRelAddress (info : EncodeVariantsInfo) (ctx : Option EncoderContext)
    (targetAddress : Int) : Int × BranchType :=
  match ctx with
  | Option.none => (kTemporaryRel32Value, BranchType.near)
  | some c =>
    let p1 : Int × BranchType :=
      if info.canEncodeRel8 then
        let rel := getRelativeAddress c.va targetAddress info.encodeSizeRel8
        if rel.natAbs ≤ 127 then (rel, BranchType.short) else (0, BranchType.none)
      else (0, BranchType.none)
    if p1.2 = BranchType.none ∧ info.canEncodeRel32 then
      let rel := getRelativeAddress c.va targetAddress info.encodeSizeRel32
      if rel.natAbs ≤ 2147483647 then (rel, BranchType.near) else p1
    else p1

/-- The mnemonic comparison chain of `getTemporaryRel`
(`req.mnemonic == ZYDIS_MNEMONIC_JCXZ || ... JECXZ || ... JKNZD`). -/
def isTempRel8Mnemonic : Mnemonic → Bool
  | .jcxz | .jecxz | .jknzd => true
  | _ => false

/-- The `req.mnemonic == ZYDIS_MNEMONIC_MOV` comparison of the Label arm. -/
def isMovMnemonic : Mnemonic → Bool
  | .mov => true
  | _ => false

/-- `getTemporaryRel`: placeholder immediate for an unresolved control-flow
label (rel8 placeholder for the workaround mnemonics, rel32 placeholder
otherwise; shifted by `va` when a context is present). -/
def getTemporaryRel (state : EncoderState) : Int :=
  let kTempRel : Int :=
    if isTempRel8Mnemonic state.req.mnemonic then kTemporaryRel8Value
    else kTemporaryRel32Value
  match state.ctx with
  | some ctx => ctx.va + kTempRel
  | Option.none => kTempRel

/-- `buildOperand_` (Reg overload).  All `buildOperand_` overloads return
`Error::None` in the source, so the model returns the built slot and the
updated state directly. -/
def buildOperandReg (state : EncoderState) (src : Reg) : ZyOperand × EncoderState :=
  ({ type := .register, regValue := src.id }, state)

/-- The label-lookup prelude of `buildOperand_` (Label overload): non-external
labels are looked up; a failed lookup marks `needsExtraPass` on the
context. -/
def resolveLabel (ctx : Option EncoderContext) (id : Int) :
    Option Int × Option EncoderContext :=
  match ctx with
  | some c =>
    if isLabelExternal c.program id then (Option.none, some c)
    else
      match c.labelAddress id with
      | some va => (some va, some c)
      | Option.none => (Option.none, some { c with needsExtraPass := true })
  | Option.none => (Option.none, Option.none)

/-- `buildOperand_` (Label overload). -/
def buildOperandLabel (state : EncoderState) (src : Label) : ZyOperand × EncoderState :=
  -- Initially a temporary placeholder. Make sure this is within rel32 if a
  -- context is provided.
  let immValue := getTemporaryRel state
  let r := resolveLabel state.ctx src.id
  let labelVA := r.1
  let state := { state with ctx := r.2 }
  -- Check if this operand is used as the control flow target.
  let encodeInfo := getEncodeVariantInfo state.req.mnemonic
  let step : Int × BranchType × EncoderState :=
    if state.operandIndex = 0 ∧ encodeInfo.isControlFlow then
      let targetAddress := labelVA.getD immValue
      let pr := processRelAddress encodeInfo state.ctx targetAddress
      (pr.1, pr.2, state)
    else
      let immValue := labelVA.getD immValue
      -- Mark relocatable, only mov is allowed to have a label.
      let state :=
        if isMovMnemonic state.req.mnemonic then
          if (state.req.operands.getD 0 {}).type = .register then
            { state with
              relocKind := .abs, relocData := .immediate, relocLabel := src.id }
          else state
        else state
      (immValue, BranchType.none, state)
  let immValue := step.1
  let desiredBranchType := step.2.1
  let state := step.2.2
  let state :=
    if desiredBranchType ≠ BranchType.none then
      { state with req := { state.req with branchType := desiredBranchType } }
    else state
  ({ type := .immediate, immS := immValue }, state)

/-- `buildOperand_` (Imm overload). -/
def buildOperandImm (state : EncoderState) (src : Imm) : ZyOperand × EncoderState :=
  let immValue := src.value
  -- Check if this operand is used as the control flow target.
  let encodeInfo := getEncodeVariantInfo state.req.mnemonic
  let step : Int × BranchType :=
    if state.operandIndex = 0 ∧ encodeInfo.isControlFlow then
      processRelAddress encodeInfo state.ctx immValue
    else (immValue, BranchType.none)
  let immValue := step.1
  let desiredBranchType := step.2
  let state :=
    if desiredBranchType ≠ BranchType.none then
      { state with req := { state.req with branchType := desiredBranchType } }
    else state
  ({ type := .immediate, immS := immValue }, state)

/-- The label-folding part of `buildOperand_` (Mem overload): fold the label's
address (or the rel32 placeholder) into the displacement; a failed
non-external lookup marks `needsExtraPass` on the context.  Returns
`(displacement, usingLabel, externalLabel, ctx)`. -/
def memLabelStep (ctx : Option EncoderContext) (labelId displacement : Int) :
    Int × Bool × Bool × Option EncoderContext :=
  if labelId ≠ labelIdInvalid then
    match ctx with
    | some c =>
      let externalLabel := isLabelExternal c.program labelId
      match c.labelAddress labelId with
      | some labelVA => (displacement + labelVA, true, externalLabel, some c)
      | Option.none =>
        let newCtx :=
          if ¬ externalLabel then some { c with needsExtraPass := true }
          else some c
        (displacement + kTemporaryRel32Value, true, externalLabel, newCtx)
    | Option.none => (displacement + kTemporaryRel32Value, true, false, Option.none)
  else (displacement, false, false, ctx)

/-- The instruction-size read of the RIP branch of `buildOperand_` (Mem
overload): read `ctx.instrSize` (0 without context) and, when a context is
present with `instrSize == 0`, set `ctx.instrSize` to the `REQUIRES_SIZE`
sentinel to demand a re-encode. -/
def memRipSizeCtx : Option EncoderContext → Int × Option EncoderContext
  | some c =>
    (c.instrSize,
      if c.instrSize = 0 then some { c with instrSize := kHintRequiresSize }
      else some c)
  | Option.none => (0, Option.none)

/-- The absolute-memory / RIP-relative part of `buildOperand_` (Mem
overload): record the `Abs`/`Memory` relocation for base- and index-less
memory, or resolve the RIP-relative displacement (demanding a re-encode when
the instruction size is still unknown) and record the `Rel32`/`Memory`
relocation for external labels. -/
def memAddrStep (state : EncoderState) (labelId base index0 address displacement : Int)
    (usingLabel externalLabel : Bool) : Int × EncoderState :=
  if base = ZYDIS_REGISTER_NONE ∧ index0 = ZYDIS_REGISTER_NONE then
    -- Memory ABS, mark relocatable.
    let state := { state with
      relocKind := RelocationType.abs, relocData := RelocationData.memory }
    let state :=
      if usingLabel then { state with relocLabel := labelId } else state
    (displacement, state)
  else if base = ZYDIS_REGISTER_RIP then
    -- We require the exact instruction size to encode this correctly.
    let sz := memRipSizeCtx state.ctx
    let instrSize := sz.1
    let state := { state with ctx := sz.2 }
    let displacement := displacement - (address + instrSize)
    let state :=
      if externalLabel then
        { state with
          relocKind := RelocationType.rel32, relocData := RelocationData.memory,
          relocLabel := labelId }
      else state
    (displacement, state)
  else (displacement, state)

/-- The segment-handling part of `buildOperand_` (Mem overload). -/
def memSegmentStep (state : EncoderState) (segmentId : Int) : EncoderState :=
  if segmentId = ZYDIS_REGISTER_GS then
    { state with
      req := { state.req with
        prefixes := state.req.prefixes ||| ZYDIS_ATTRIB_HAS_SEGMENT_GS } }
  else if segmentId = ZYDIS_REGISTER_FS then
    { state with
      req := { state.req with
        prefixes := state.req.prefixes ||| ZYDIS_ATTRIB_HAS_SEGMENT_FS } }
  else state

/-- `buildOperand_` (Mem overload). -/
def buildOperandMem (state : EncoderState) (src : Mem) : ZyOperand × EncoderState :=
  let base0 := src.base.id
  let index0 := src.index.id
  let address : Int :=
    match state.ctx with
    | some c => c.va
    | Option.none => 0
  let dstep := memLabelStep state.ctx src.labelId src.displacement
  let displacement := dstep.1
  let usingLabel := dstep.2.1
  let externalLabel := dstep.2.2.1
  let state := { state with ctx := dstep.2.2.2 }
  -- For 64 bit we default to rip rel.
  let base :=
    if state.req.machineMode = .long64 ∧ base0 = ZYDIS_REGISTER_NONE
        ∧ index0 = ZYDIS_REGISTER_NONE ∧ usingLabel then
      ZYDIS_REGISTER_RIP
    else base0
  let rstep := memAddrStep state src.labelId base index0 address displacement
    usingLabel externalLabel
  let displacement := rstep.1
  let state := rstep.2
  -- Handling segment
  let state := memSegmentStep state src.segment.id
  ({ type := .memory, memBase := base, memIndex := index0, memScale := src.scale,
     memSize := src.byteSize, memDisplacement := displacement }, state)

/-- `buildOperand_` (Operand::None overload). -/
def buildOperandNone (state : EncoderState) : ZyOperand × EncoderState :=
  ({ type := .unused }, state)

/-- `buildOperand`: visitor dispatch over the operand sum type. -/
def buildOperand (state : EncoderState) : Operand → ZyOperand × EncoderState
  | .none => buildOperandNone state
  | .reg r => buildOperandReg state r
  | .imm i => buildOperandImm state i
  | .label l => buildOperandLabel state l
  | .mem m => buildOperandMem state m

/-- The mnemonic set of `fixupIs4Operands`. -/
def isIs4Mnemonic : Mnemonic → Bool
  | .vblendvpd | .vblendvps
  | .vfmaddpd | .vfmaddps | .vfmaddsd | .vfmaddss
  | .vfmaddsubpd | .vfmaddsubps
  | .vfmsubaddpd | .vfmsubaddps
  | .vfmsubpd | .vfmsubps | .vfmsubsd | .vfmsubss
  | .vfnmaddpd | .vfnmaddps | .vfnmaddsd | .vfnmaddss
  | .vfnmsubpd | .vpmacssdd | .vpmacssdqh
  | .vfnmsubps | .vfnmsubsd | .vfnmsubss
  | .vpblendvb | .vpcmov
  | .vpermil2pd | .vpermil2ps
  | .vpmacsdd | .vpmacsdqh | .vpmacsdql
  | .vpmacssdql | .vpmacssww | .vpmacsswd | .vpmacswd | .vpmacsww
  | .vpmadcsswd | .vpmadcswd | .vpperm => true
  | _ => false

/-- `fixupIs4Operands`. -/
def fixupIs4Operands (req : ZydisEncoderRequest) : ZydisEncoderRequest :=
  if ¬ isIs4Mnemonic req.mnemonic then req
  else
    let op2 := req.operands.getD 2 {}
    let op3 := req.operands.getD 3 {}
    if op2.type = .register ∧ op3.type = .memory then
      { req with operands := req.operands.set 2 { op2 with regIs4 := true } }
    else if (op2.type = .register ∧ op3.type = .register)
        ∨ (op2.type = .memory ∧ op3.type = .register) then
      { req with operands := req.operands.set 3 { op3 with regIs4 := true } }
    else req

/-- One iteration of the operand loop of `encode_`: build the operand into
its request slot and bump `operand_count` and the operand index. -/
def loopStep (state : EncoderState) (src : Operand) : EncoderState :=
  let b := buildOperand state src
  let state' := b.2
  { state' with
    req := { state'.req with
      operands := state'.req.operands.set state'.operandIndex b.1,
      operandCount := state'.req.operandCount + 1 },
    operandIndex := state'.operandIndex + 1 }

/-- The operand loop of `encode_`. -/
def buildOperandsLoop : List Operand → EncoderState → EncoderState
  | [], state => state
  | src :: rest, state => buildOperandsLoop rest (loopStep state src)

/-- The request-initialization prelude of `encode_`: machine mode, mnemonic,
prefix bits and operand-size hint. -/
def initRequest (mode : MachineMode) (attribs : Attribs) (mnemonic : Mnemonic) :
    ZydisEncoderRequest :=
  let req : ZydisEncoderRequest := {}
  let req :=
    match mode with
    | .amd64 => { req with machineMode := .long64 }
    | .i386 => { req with machineMode := .longCompat32 }
  let req := { req with mnemonic := mnemonic, prefixes := getAttribs attribs }
  let req :=
    if attribs.operandSize8 then { req with operandSizeHint := .h8 }
    else if attribs.operandSize16 then { req with operandSizeHint := .h16 }
    else if attribs.operandSize32 then { req with operandSizeHint := .h32 }
    else if attribs.operandSize64 then { req with operandSizeHint := .h64 }
    else req
  req

/-- The deterministic part of `encode_` before the byte-level encoder is
invoked: initialize the request, build `min(MAX_OPERANDS, numOps)` operands,
run the is4 fixup. -/
def prepareRequest (ctx : Option EncoderContext) (mode : MachineMode)
    (attribs : Attribs) (mnemonic : Mnemonic) (numOps : Nat)
    (operands : List Operand) : EncoderState :=
  let state : EncoderState := { ctx := ctx, req := initRequest mode attribs mnemonic }
  let state := buildOperandsLoop (operands.take (min 5 numOps)) state
  { state with req := fixupIs4Operands state.req }

/-- `encode_`: single-shot encode.  `byteEncoder` abstracts
`ZydisEncoderEncodeInstruction` (length on success); any failure maps to
`Error::ImpossibleInstruction`.  The updated context (mutated through the
state's pointer in the source) is returned alongside the result. -/
def encode_ (byteEncoder : ZydisEncoderRequest → Option Nat)
    (ctx : Option EncoderContext) (mode : MachineMode) (attribs : Attribs)
    (mnemonic : Mnemonic) (numOps : Nat) (operands : List Operand) :
    Except Error (EncoderResult × Option EncoderContext) :=
  let state := prepareRequest ctx mode attribs mnemonic numOps operands
  match byteEncoder state.req with
  | Option.none => .error .impossibleInstruction
  | some len =>
    .ok ({ length := len, relocKind := state.relocKind,
           relocData := state.relocData, relocLabel := state.relocLabel },
         state.ctx)

/-- `encode` (context-free entry point). -/
def encode (byteEncoder : ZydisEncoderRequest → Option Nat) (mode : MachineMode)
    (attribs : Attribs) (mnemonic : Mnemonic) (numOps : Nat)
    (operands : List Operand) : Except Error EncoderResult :=
  match encode_ byteEncoder Option.none mode attribs mnemonic numOps operands with
  | .error e => .error e
  | .ok (res, _) => .ok res

/-- The re-encode loop of `encodeWithContext`, with explicit fuel (the source
`while` loop has no built-in bound; `Option.none` means the fuel ran out
before the loop exited).  `encode_` always hands back a present context here;
`getD` merely discharges the option. -/
def encodeWithContextLoop (byteEncoder : ZydisEncoderRequest → Option Nat)
    (mode : MachineMode) (attribs : Attribs) (mnemonic : Mnemonic) (numOps : Nat)
    (operands : List Operand) :
    Nat → EncoderContext → EncoderResult →
      Option (Except Error (EncoderResult × EncoderContext))
  | fuel, ctx, res =>
    if ctx.instrSize ≠ kHintRequiresSize then some (.ok (res, ctx))
    else
      match fuel with
      | 0 => Option.none
      | fuel + 1 =>
        -- Encode with now known size, instruction size can change again in
        -- this call.
        let ctx1 := { ctx with instrSize := (res.length : Int) }
        match encode_ byteEncoder (some ctx1) mode attribs mnemonic numOps operands with
        | .error e => some (.error e)
        | .ok (res2, ctxOpt) =>
          let ctx2 := ctxOpt.getD ctx1
          -- If the instruction size does not match what we previously
          -- specified we need to re-encode it with the now known size.
          let ctx3 :=
            if (res2.length : Int) ≠ ctx2.instrSize then
              { ctx2 with instrSize := kHintRequiresSize }
            else ctx2
          encodeWithContextLoop byteEncoder mode attribs mnemonic numOps operands
            fuel ctx3 res2

/-- `encodeWithContext`: context-driven encode with the iterative re-encode
protocol. -/
def encodeWithContext (byteEncoder : ZydisEncoderRequest → Option Nat)
    (fuel : Nat) (ctx : EncoderContext) (mode : MachineMode) (attribs : Attribs)
    (mnemonic : Mnemonic) (numOps : Nat) (operands : List Operand) :
    Option (Except Error (EncoderResult × EncoderContext)) :=
  -- encode_ will set this to kHintRequiresSize in case a length is required
  -- for correct encoding.
  let ctx0 := { ctx with instrSize := 0 }
  match encode_ byteEncoder (some ctx0) mode attribs mnemonic numOps operands with
  | .error e => some (.error e)
  | .ok (res, ctxOpt) =>
    encodeWithContextLoop byteEncoder mode attribs mnemonic numOps operands
      fuel (ctxOpt.getD ctx0) res

/-! ### Predicates used in the claim statements -/

/-- Operands that carry no label reference and no memory payload (register,
plain immediate, absent slot). -/
def plainOp : Operand → Bool
  | .reg _ => true
  | .imm _ => true
  | .none => true
  | _ => false

/-- Every label the operand references is marked `External`. -/
def labelRefsExternalOnly (prog : ProgramState) : Operand → Bool
  | .label l => isLabelExternal prog l.id
  | .mem m => m.labelId == labelIdInvalid || isLabelExternal prog m.labelId
  | _ => true

/-- The operand references a non-external label whose address lookup fails. -/
def unresolvedInternalLabel (prog : ProgramState) (addr : Int → Option Int) :
    Operand → Bool
  | .label l => !isLabelExternal prog l.id && (addr l.id).isNone
  | .mem m =>
    m.labelId != labelIdInvalid && !isLabelExternal prog m.labelId
      && (addr m.labelId).isNone
  | _ => false

/-- The operand is a memory operand whose base register ends up as `RIP` in
the built request: either the base is `RIP` already, or the 64-bit
promotion of a base- and index-less label reference rewrites it to `RIP`. -/
def opBecomesRip (mm : ZyMachineMode) : Operand → Bool
  | .mem m =>
    m.base.id == ZYDIS_REGISTER_RIP
      || (mm == ZyMachineMode.long64 && m.base.id == ZYDIS_REGISTER_NONE
          && m.index.id == ZYDIS_REGISTER_NONE && m.labelId != labelIdInvalid)
  | _ => false

/-- How one operand build may change the encoder context: `va`, the program
handle and the address lookup are read-only; `needsExtraPass` may only be
raised; `instrSize` is rewritten (to the `REQUIRES_SIZE` sentinel) only when
it was 0. -/
def ctxEvolves (c c' : EncoderContext) : Prop :=
  c'.va = c.va ∧ c'.program = c.program ∧ c'.labelAddress = c.labelAddress ∧
  (c.needsExtraPass = true → c'.needsExtraPass = true) ∧
  (c'.instrSize = c.instrSize ∨ (c.instrSize = 0 ∧ c'.instrSize = kHintRequiresSize))

/-- `ctxEvolves` lifted to the nullable context. -/
def optCtxEvolves : Option EncoderContext → Option EncoderContext → Prop
  | some c, some c' => ctxEvolves c c'
  | Option.none, Option.none => True
  | _, _ => False

/-- Fields of the encoder state that a single `buildOperand_` call never
changes (the surrounding loop, not the visitor arms, advances the operand
index and the request's operand slots). -/
def armInv (st st' : EncoderState) : Prop :=
  optCtxEvolves st.ctx st'.ctx ∧
  st'.req.mnemonic = st.req.mnemonic ∧
  st'.req.machineMode = st.req.machineMode ∧
  st'.req.operandSizeHint = st.req.operandSizeHint ∧
  st'.req.operands = st.req.operands ∧
  st'.req.operandCount = st.req.operandCount ∧
  st'.operandIndex = st.operandIndex

/-- Concrete context fixture: one internal label (id 0), not yet placed. -/
def ctxUnresolvedFix : EncoderContext :=
  { va := 0x1000, instrSize := 0, program := { labels := [{ flags := 0 }] },
    labelAddress := fun _ => Option.none, needsExtraPass := false }

/-- Concrete context fixture: one `External` label (id 0). -/
def ctxExternalFix : EncoderContext :=
  { va := 0x1000, instrSize := 0, program := { labels := [{ flags := 2 }] },
    labelAddress := fun _ => Option.none, needsExtraPass := false }

/-- Concrete context fixture: one internal label (id 0) placed at 0x5000. -/
def ctxResolvedFix : EncoderContext :=
  { va := 0x1000, instrSize := 0, program := { labels := [{ flags := 0 }] },
    labelAddress := fun _ => some 0x5000, needsExtraPass := false }

/-- Invariant (I1): a non-`None` relocation kind comes with a non-`None`
relocation data slot. -/
def relocCoherent (st : EncoderState) : Prop :=
  st.relocKind ≠ RelocationType.none → st.relocData ≠ RelocationData.none

theorem ctxEvolves_refl (c : EncoderContext) : ctxEvolves c c :=
  ⟨rfl, rfl, rfl, fun h => h, Or.inl rfl⟩

theorem ctxEvolves_trans {a b c : EncoderContext} (h1 : ctxEvolves a b)
    (h2 : ctxEvolves b c) : ctxEvolves a c := by
  obtain ⟨v1, p1, l1, n1, s1⟩ := h1
  obtain ⟨v2, p2, l2, n2, s2⟩ := h2
  refine ⟨v2.trans v1, p2.trans p1, l2.trans l1, fun h => n2 (n1 h), ?_⟩
  unfold kHintRequiresSize at *
  rcases s1 with h1 | ⟨h1a, h1b⟩ <;> rcases s2 with h2 | ⟨h2a, h2b⟩ <;> omega

theorem optCtxEvolves_refl (c : Option EncoderContext) : optCtxEvolves c c := by
  cases c with
  | none => trivial
  | some c => exact ctxEvolves_refl c

theorem optCtxEvolves_trans {a b c : Option EncoderContext}
    (h1 : optCtxEvolves a b) (h2 : optCtxEvolves b c) : optCtxEvolves a c := by
  cases a <;> cases b <;> cases c <;> first
    | trivial
    | exact ctxEvolves_trans h1 h2

theorem resolveLabel_evolves (ctx : Option EncoderContext) (id : Int) :
    optCtxEvolves ctx (resolveLabel ctx id).2 := by
  cases ctx with
  | none => trivial
  | some c =>
    unfold resolveLabel
    dsimp only
    split
    · exact ctxEvolves_refl c
    · cases c.labelAddress id with
      | none => exact ⟨rfl, rfl, rfl, fun _ => rfl, Or.inl rfl⟩
      | some v => exact ctxEvolves_refl c

theorem memLabelStep_evolves (ctx : Option EncoderContext) (labelId disp : Int) :
    optCtxEvolves ctx (memLabelStep ctx labelId disp).2.2.2 := by
  unfold memLabelStep
  split
  · cases ctx with
    | none => trivial
    | some c =>
      dsimp only
      cases c.labelAddress labelId with
      | none =>
        dsimp only
        split
        · exact ⟨rfl, rfl, rfl, fun _ => rfl, Or.inl rfl⟩
        · exact ctxEvolves_refl c
      | some v => exact ctxEvolves_refl c
  · exact optCtxEvolves_refl ctx

theorem memRipSizeCtx_evolves (ctx : Option EncoderContext) :
    optCtxEvolves ctx (memRipSizeCtx ctx).2 := by
  cases ctx with
  | none => trivial
  | some c =>
    unfold memRipSizeCtx
    dsimp only
    split
    · exact ⟨rfl, rfl, rfl, fun h => h, Or.inr ⟨by assumption, rfl⟩⟩
    · exact ctxEvolves_refl c

theorem memAddrStep_ctx_evolves (st : EncoderState)
    (labelId base index0 address displacement : Int) (ul el : Bool) :
    optCtxEvolves st.ctx
      (memAddrStep st labelId base index0 address displacement ul el).2.ctx := by
  unfold memAddrStep
  split
  · split <;> exact optCtxEvolves_refl st.ctx
  · split
    · split
      · exact memRipSizeCtx_evolves st.ctx
      · exact memRipSizeCtx_evolves st.ctx
    · exact optCtxEvolves_refl st.ctx

theorem memAddrStep_req (st : EncoderState)
    (labelId base index0 address displacement : Int) (ul el : Bool) :
    (memAddrStep st labelId base index0 address displacement ul el).2.req
      = st.req := by
  unfold memAddrStep
  split
  · split <;> rfl
  · split
    · split <;> rfl
    · rfl

theorem memAddrStep_operandIndex (st : EncoderState)
    (labelId base index0 address displacement : Int) (ul el : Bool) :
    (memAddrStep st labelId base index0 address displacement ul el).2.operandIndex
      = st.operandIndex := by
  unfold memAddrStep
  split
  · split <;> rfl
  · split
    · split <;> rfl
    · rfl

theorem memSegmentStep_armInv (st : EncoderState) (segId : Int) :
    armInv st (memSegmentStep st segId) := by
  unfold memSegmentStep
  split
  · exact ⟨optCtxEvolves_refl _, rfl, rfl, rfl, rfl, rfl, rfl⟩
  · split
    · exact ⟨optCtxEvolves_refl _, rfl, rfl, rfl, rfl, rfl, rfl⟩
    · exact ⟨optCtxEvolves_refl _, rfl, rfl, rfl, rfl, rfl, rfl⟩

theorem armInv_trans {a b c : EncoderState} (h1 : armInv a b) (h2 : armInv b c) :
    armInv a c := by
  obtain ⟨e1, m1, mm1, o1, os1, oc1, i1⟩ := h1
  obtain ⟨e2, m2, mm2, o2, os2, oc2, i2⟩ := h2
  exact ⟨optCtxEvolves_trans e1 e2, m2.trans m1, mm2.trans mm1, o2.trans o1,
    os2.trans os1, oc2.trans oc1, i2.trans i1⟩

theorem buildOperandReg_armInv (st : EncoderState) (src : Reg) :
    armInv st (buildOperandReg st src).2 :=
  ⟨optCtxEvolves_refl _, rfl, rfl, rfl, rfl, rfl, rfl⟩

theorem buildOperandNone_armInv (st : EncoderState) :
    armInv st (buildOperandNone st).2 :=
  ⟨optCtxEvolves_refl _, rfl, rfl, rfl, rfl, rfl, rfl⟩

theorem buildOperandImm_armInv (st : EncoderState) (src : Imm) :
    armInv st (buildOperandImm st src).2 := by
  unfold buildOperandImm
  dsimp only
  repeat' split
  all_goals exact ⟨optCtxEvolves_refl _, rfl, rfl, rfl, rfl, rfl, rfl⟩

theorem buildOperandLabel_armInv (st : EncoderState) (src : Label) :
    armInv st (buildOperandLabel st src).2 := by
  have h := resolveLabel_evolves st.ctx src.id
  unfold buildOperandLabel
  dsimp only
  repeat' split
  all_goals exact ⟨h, rfl, rfl, rfl, rfl, rfl, rfl⟩

theorem buildOperandMem_armInv (st : EncoderState) (src : Mem) :
    armInv st (buildOperandMem st src).2 := by
  have h1 := memLabelStep_evolves st.ctx src.labelId src.displacement
  unfold buildOperandMem
  dsimp only
  set st1 : EncoderState :=
    { st with ctx := (memLabelStep st.ctx src.labelId src.displacement).2.2.2 }
    with hst1
  have inv1 : armInv st st1 := ⟨h1, rfl, rfl, rfl, rfl, rfl, rfl⟩
  have inv2 : armInv st1 (memAddrStep st1 src.labelId
      (if st1.req.machineMode = ZyMachineMode.long64
          ∧ src.base.id = ZYDIS_REGISTER_NONE ∧ src.index.id = ZYDIS_REGISTER_NONE
          ∧ (memLabelStep st.ctx src.labelId src.displacement).2.1 = true then
        ZYDIS_REGISTER_RIP
      else src.base.id)
      src.index.id
      (match st.ctx with | some c => c.va | Option.none => 0)
      (memLabelStep st.ctx src.labelId src.displacement).1
      (memLabelStep st.ctx src.labelId src.displacement).2.1
      (memLabelStep st.ctx src.labelId src.displacement).2.2.1).2 := by
    refine ⟨memAddrStep_ctx_evolves _ _ _ _ _ _ _ _, ?_, ?_, ?_, ?_, ?_,
      memAddrStep_operandIndex _ _ _ _ _ _ _ _⟩ <;>
      rw [memAddrStep_req]
  exact armInv_trans inv1 (armInv_trans inv2 (memSegmentStep_armInv _ _))

theorem buildOperand_armInv (st : EncoderState) (op : Operand) :
    armInv st (buildOperand st op).2 := by
  cases op with
  | none => exact buildOperandNone_armInv st
  | reg r => exact buildOperandReg_armInv st r
  | imm i => exact buildOperandImm_armInv st i
  | label l => exact buildOperandLabel_armInv st l
  | mem m => exact buildOperandMem_armInv st m

/-! ### Invariants of the operand loop -/

theorem loopStep_ctx (st : EncoderState) (op : Operand) :
    (loopStep st op).ctx = (buildOperand st op).2.ctx := rfl

theorem loopStep_evolves (st : EncoderState) (op : Operand) :
    optCtxEvolves st.ctx (loopStep st op).ctx :=
  (buildOperand_armInv st op).1

theorem loopStep_mnemonic (st : EncoderState) (op : Operand) :
    (loopStep st op).req.mnemonic = st.req.mnemonic :=
  (buildOperand_armInv st op).2.1

theorem loopStep_machineMode (st : EncoderState) (op : Operand) :
    (loopStep st op).req.machineMode = st.req.machineMode :=
  (buildOperand_armInv st op).2.2.1

theorem loopStep_operandIndex (st : EncoderState) (op : Operand) :
    (loopStep st op).operandIndex = st.operandIndex + 1 := by
  show (buildOperand st op).2.operandIndex + 1 = st.operandIndex + 1
  rw [(buildOperand_armInv st op).2.2.2.2.2.2]

theorem loopStep_reloc (st : EncoderState) (op : Operand) :
    (loopStep st op).relocKind = (buildOperand st op).2.relocKind ∧
    (loopStep st op).relocData = (buildOperand st op).2.relocData ∧
    (loopStep st op).relocLabel = (buildOperand st op).2.relocLabel :=
  ⟨rfl, rfl, rfl⟩

theorem loopStep_operands_length (st : EncoderState) (op : Operand) :
    (loopStep st op).req.operands.length = st.req.operands.length := by
  show ((buildOperand st op).2.req.operands.set _ _).length = _
  rw [List.length_set, (buildOperand_armInv st op).2.2.2.2.1]

theorem loopStep_slots_lt (st : EncoderState) (op : Operand) (k : Nat)
    (hk : k < st.operandIndex) :
    (loopStep st op).req.operands[k]? = st.req.operands[k]? := by
  show ((buildOperand st op).2.req.operands.set
    (buildOperand st op).2.operandIndex _)[k]? = _
  rw [(buildOperand_armInv st op).2.2.2.2.1,
    (buildOperand_armInv st op).2.2.2.2.2.2,
    List.getElem?_set_ne (by omega)]

/-! ### Per-arm facts -/

theorem memSegmentStep_fields (st : EncoderState) (s : Int) :
    (memSegmentStep st s).ctx = st.ctx ∧
    (memSegmentStep st s).relocKind = st.relocKind ∧
    (memSegmentStep st s).relocData = st.relocData ∧
    (memSegmentStep st s).relocLabel = st.relocLabel ∧
    (memSegmentStep st s).req.branchType = st.req.branchType := by
  unfold memSegmentStep
  repeat' split
  all_goals exact ⟨rfl, rfl, rfl, rfl, rfl⟩

theorem buildOperandImm_ctx (st : EncoderState) (src : Imm) :
    (buildOperandImm st src).2.ctx = st.ctx := by
  unfold buildOperandImm
  dsimp only
  repeat' split
  all_goals rfl

theorem buildOperandLabel_ctx (st : EncoderState) (src : Label) :
    (buildOperandLabel st src).2.ctx = (resolveLabel st.ctx src.id).2 := by
  unfold buildOperandLabel
  dsimp only
  repeat' split
  all_goals rfl

theorem resolveLabel_external (c : EncoderContext) (id : Int)
    (h : isLabelExternal c.program id = true) :
    resolveLabel (some c) id = (Option.none, some c) := by
  unfold resolveLabel
  dsimp only
  rw [if_pos h]

theorem resolveLabel_resolved (c : EncoderContext) (id v : Int)
    (hext : isLabelExternal c.program id = false) (ha : c.labelAddress id = some v) :
    resolveLabel (some c) id = (some v, some c) := by
  unfold resolveLabel
  dsimp only
  rw [if_neg (by simp [hext]), ha]

theorem resolveLabel_unresolved (c : EncoderContext) (id : Int)
    (hext : isLabelExternal c.program id = false)
    (ha : c.labelAddress id = Option.none) :
    resolveLabel (some c) id
      = (Option.none, some { c with needsExtraPass := true }) := by
  unfold resolveLabel
  dsimp only
  rw [if_neg (by simp [hext]), ha]

theorem memLabelStep_external (c : EncoderContext) (labelId d : Int)
    (h : labelId = labelIdInvalid ∨ isLabelExternal c.program labelId = true) :
    (memLabelStep (some c) labelId d).2.2.2 = some c := by
  unfold memLabelStep
  dsimp only
  rcases h with h | h
  · rw [if_neg (by simp [h])]
  · by_cases hi : labelId = labelIdInvalid
    · rw [if_neg (by simp [hi])]
    · rw [if_pos hi]
      cases ha : c.labelAddress labelId with
      | none => rw [h]; simp
      | some v => rfl

theorem memLabelStep_unresolved (c : EncoderContext) (labelId d : Int)
    (hi : labelId ≠ labelIdInvalid)
    (hext : isLabelExternal c.program labelId = false)
    (ha : c.labelAddress labelId = Option.none) :
    memLabelStep (some c) labelId d
      = (d + kTemporaryRel32Value, true, false,
          some { c with needsExtraPass := true }) := by
  unfold memLabelStep
  dsimp only
  rw [if_pos hi]
  rw [ha, hext]
  simp

theorem memLabelStep_usingLabel (ctx : Option EncoderContext) (labelId d : Int)
    (h : labelId ≠ labelIdInvalid) :
    (memLabelStep ctx labelId d).2.1 = true := by
  unfold memLabelStep
  dsimp only
  rw [if_pos h]
  cases ctx with
  | none => rfl
  | some c =>
    dsimp only
    cases c.labelAddress labelId <;> rfl

theorem memAddrStep_flag (st : EncoderState)
    (labelId base index0 address displacement : Int) (ul el : Bool)
    (c : EncoderContext) (hc : st.ctx = some c) :
    ∃ c', (memAddrStep st labelId base index0 address displacement ul el).2.ctx
        = some c' ∧ c'.needsExtraPass = c.needsExtraPass
        ∧ c'.program = c.program ∧ c'.labelAddress = c.labelAddress
        ∧ c'.va = c.va := by
  unfold memAddrStep
  repeat' split
  all_goals
    first
    | exact ⟨c, hc, rfl, rfl, rfl, rfl⟩
    | · show ∃ c', (memRipSizeCtx st.ctx).2 = some c' ∧ _
        rw [hc]
        unfold memRipSizeCtx
        dsimp only
        split
        · exact ⟨_, rfl, rfl, rfl, rfl, rfl⟩
        · exact ⟨c, rfl, rfl, rfl, rfl, rfl⟩

theorem buildOperandMem_ctx (st : EncoderState) (src : Mem) :
    (buildOperandMem st src).2.ctx
      = (memAddrStep
          { st with ctx := (memLabelStep st.ctx src.labelId src.displacement).2.2.2 }
          src.labelId
          (if ({ st with
                ctx := (memLabelStep st.ctx src.labelId src.displacement).2.2.2 }
                  : EncoderState).req.machineMode = ZyMachineMode.long64
              ∧ src.base.id = ZYDIS_REGISTER_NONE
              ∧ src.index.id = ZYDIS_REGISTER_NONE
              ∧ (memLabelStep st.ctx src.labelId src.displacement).2.1 = true then
            ZYDIS_REGISTER_RIP
          else src.base.id)
          src.index.id
          (match st.ctx with | some c => c.va | Option.none => 0)
          (memLabelStep st.ctx src.labelId src.displacement).1
          (memLabelStep st.ctx src.labelId src.displacement).2.1
          (memLabelStep st.ctx src.labelId src.displacement).2.2.1).2.ctx := by
  unfold buildOperandMem
  dsimp only
  rw [(memSegmentStep_fields _ _).1]

theorem buildOperandImm_branch_of_ne (st : EncoderState) (src : Imm)
    (h : st.operandIndex ≠ 0) :
    (buildOperandImm st src).2.req.branchType = st.req.branchType := by
  have hcond : ¬(st.operandIndex = 0
      ∧ (getEncodeVariantInfo st.req.mnemonic).isControlFlow = true) :=
    fun hc => h hc.1
  have hnn : ¬(BranchType.none ≠ BranchType.none) := fun hc => hc rfl
  unfold buildOperandImm
  dsimp only
  rw [if_neg hcond]
  dsimp only
  rw [if_neg hnn]

theorem buildOperandLabel_branch_of_ne (st : EncoderState) (src : Label)
    (h : st.operandIndex ≠ 0) :
    (buildOperandLabel st src).2.req.branchType = st.req.branchType := by
  have hcond : ¬(st.operandIndex = 0
      ∧ (getEncodeVariantInfo st.req.mnemonic).isControlFlow = true) :=
    fun hc => h hc.1
  have hnn : ¬(BranchType.none ≠ BranchType.none) := fun hc => hc rfl
  unfold buildOperandLabel
  dsimp only
  rw [if_neg hcond]
  dsimp only
  rw [if_neg hnn]
  repeat' split
  all_goals rfl

theorem buildOperandMem_branch (st : EncoderState) (src : Mem) :
    (buildOperandMem st src).2.req.branchType = st.req.branchType := by
  unfold buildOperandMem
  dsimp only
  rw [(memSegmentStep_fields _ _).2.2.2.2, memAddrStep_req]

theorem buildOperand_branch_of_ne (st : EncoderState) (op : Operand)
    (h : st.operandIndex ≠ 0) :
    (buildOperand st op).2.req.branchType = st.req.branchType := by
  cases op with
  | none => rfl
  | reg r => rfl
  | imm i => exact buildOperandImm_branch_of_ne st i h
  | label l => exact buildOperandLabel_branch_of_ne st l h
  | mem m => exact buildOperandMem_branch st m

theorem buildOperand_plain_reloc (st : EncoderState) (op : Operand)
    (h : plainOp op = true) :
    (buildOperand st op).2.relocKind = st.relocKind ∧
    (buildOperand st op).2.relocData = st.relocData ∧
    (buildOperand st op).2.relocLabel = st.relocLabel := by
  cases op with
  | none => exact ⟨rfl, rfl, rfl⟩
  | reg r => exact ⟨rfl, rfl, rfl⟩
  | imm i =>
    show (buildOperandImm st i).2.relocKind = st.relocKind ∧
      (buildOperandImm st i).2.relocData = st.relocData ∧
      (buildOperandImm st i).2.relocLabel = st.relocLabel
    unfold buildOperandImm
    dsimp only
    repeat' split
    all_goals exact ⟨rfl, rfl, rfl⟩
  | label l => simp [plainOp] at h
  | mem m => simp [plainOp] at h

theorem memSegmentStep_relocCoh (st : EncoderState) (s : Int)
    (h : relocCoherent st) : relocCoherent (memSegmentStep st s) := by
  intro hk
  rw [(memSegmentStep_fields st s).2.2.1]
  exact h (by rw [(memSegmentStep_fields st s).2.1] at hk; exact hk)

theorem memAddrStep_relocCoh (st : EncoderState)
    (labelId base index0 address displacement : Int) (ul el : Bool)
    (h : relocCoherent st) :
    relocCoherent
      (memAddrStep st labelId base index0 address displacement ul el).2 := by
  unfold memAddrStep
  repeat' split
  all_goals first
    | exact h
    | exact fun _ h2 => nomatch h2

theorem buildOperand_relocCoh (st : EncoderState) (op : Operand)
    (h : relocCoherent st) : relocCoherent (buildOperand st op).2 := by
  cases op with
  | none => exact h
  | reg r => exact h
  | imm i =>
    show relocCoherent (buildOperandImm st i).2
    unfold buildOperandImm
    dsimp only
    repeat' split
    all_goals exact h
  | label l =>
    show relocCoherent (buildOperandLabel st l).2
    unfold buildOperandLabel
    dsimp only
    repeat' split
    all_goals first
      | exact h
      | exact fun _ h2 => nomatch h2
  | mem m =>
    show relocCoherent (buildOperandMem st m).2
    unfold buildOperandMem
    dsimp only
    exact memSegmentStep_relocCoh _ _ (memAddrStep_relocCoh _ _ _ _ _ _ _ _ h)

theorem buildOperand_external_flag (st : EncoderState) (op : Operand)
    (c : EncoderContext) (hc : st.ctx = some c)
    (h : labelRefsExternalOnly c.program op = true) :
    ∃ c', (buildOperand st op).2.ctx = some c'
      ∧ c'.needsExtraPass = c.needsExtraPass := by
  cases op with
  | none => exact ⟨c, hc, rfl⟩
  | reg r => exact ⟨c, hc, rfl⟩
  | imm i =>
    refine ⟨c, ?_, rfl⟩
    show (buildOperandImm st i).2.ctx = some c
    rw [buildOperandImm_ctx, hc]
  | label l =>
    refine ⟨c, ?_, rfl⟩
    show (buildOperandLabel st l).2.ctx = some c
    rw [buildOperandLabel_ctx, hc,
      resolveLabel_external c l.id (by simpa [labelRefsExternalOnly] using h)]
  | mem m =>
    show ∃ c', (buildOperandMem st m).2.ctx = some c' ∧ _
    rw [buildOperandMem_ctx]
    have hml : (memLabelStep st.ctx m.labelId m.displacement).2.2.2 = some c := by
      rw [hc]
      refine memLabelStep_external c _ _ ?_
      simpa [labelRefsExternalOnly, labelIdInvalid] using h
    rw [hml]
    exact memAddrStep_flag _ _ _ _ _ _ _ _ c rfl |>.imp
      fun c' hx => ⟨hx.1, hx.2.1⟩

theorem buildOperand_unresolved_flag (st : EncoderState) (op : Operand)
    (c : EncoderContext) (hc : st.ctx = some c)
    (h : unresolvedInternalLabel c.program c.labelAddress op = true) :
    ∃ c', (buildOperand st op).2.ctx = some c'
      ∧ c'.needsExtraPass = true := by
  cases op with
  | none => simp [unresolvedInternalLabel] at h
  | reg r => simp [unresolvedInternalLabel] at h
  | imm i => simp [unresolvedInternalLabel] at h
  | label l =>
    refine ⟨{ c with needsExtraPass := true }, ?_, rfl⟩
    show (buildOperandLabel st l).2.ctx = _
    simp only [unresolvedInternalLabel, Bool.and_eq_true, Bool.not_eq_true',
      Option.isNone_iff_eq_none] at h
    rw [buildOperandLabel_ctx, hc, resolveLabel_unresolved c l.id h.1 h.2]
  | mem m =>
    show ∃ c', (buildOperandMem st m).2.ctx = some c' ∧ _
    simp only [unresolvedInternalLabel, Bool.and_eq_true, Bool.not_eq_true',
      Option.isNone_iff_eq_none, bne_iff_ne, ne_eq] at h
    rw [buildOperandMem_ctx]
    obtain ⟨⟨h1, h2⟩, h3⟩ := h
    have hml : (memLabelStep st.ctx m.labelId m.displacement).2.2.2
        = some { c with needsExtraPass := true } := by
      rw [hc, memLabelStep_unresolved c _ _ h1 h2 h3]
    rw [hml]
    exact memAddrStep_flag _ _ _ _ _ _ _ _ { c with needsExtraPass := true } rfl
      |>.imp fun c' hx => ⟨hx.1, hx.2.1⟩

theorem buildOperandsLoop_evolves (l : List Operand) (st : EncoderState) :
    optCtxEvolves st.ctx (buildOperandsLoop l st).ctx := by
  induction l generalizing st with
  | nil => exact optCtxEvolves_refl _
  | cons op rest ih =>
    exact optCtxEvolves_trans (loopStep_evolves st op) (ih (loopStep st op))

theorem buildOperandsLoop_mnemonic (l : List Operand) (st : EncoderState) :
    (buildOperandsLoop l st).req.mnemonic = st.req.mnemonic := by
  induction l generalizing st with
  | nil => rfl
  | cons op rest ih =>
    exact (ih (loopStep st op)).trans (loopStep_mnemonic st op)

theorem buildOperandsLoop_machineMode (l : List Operand) (st : EncoderState) :
    (buildOperandsLoop l st).req.machineMode = st.req.machineMode := by
  induction l generalizing st with
  | nil => rfl
  | cons op rest ih =>
    exact (ih (loopStep st op)).trans (loopStep_machineMode st op)

theorem buildOperandsLoop_operandIndex (l : List Operand) (st : EncoderState) :
    (buildOperandsLoop l st).operandIndex = st.operandIndex + l.length := by
  induction l generalizing st with
  | nil => rfl
  | cons op rest ih =>
    rw [show buildOperandsLoop (op :: rest) st
        = buildOperandsLoop rest (loopStep st op) from rfl,
      ih (loopStep st op), loopStep_operandIndex]
    simp only [List.length_cons]
    omega

theorem buildOperandsLoop_slots_lt (l : List Operand) (st : EncoderState)
    (k : Nat) (hk : k < st.operandIndex) :
    (buildOperandsLoop l st).req.operands[k]? = st.req.operands[k]? := by
  induction l generalizing st with
  | nil => rfl
  | cons op rest ih =>
    rw [show buildOperandsLoop (op :: rest) st
        = buildOperandsLoop rest (loopStep st op) from rfl,
      ih (loopStep st op) (by rw [loopStep_operandIndex]; omega),
      loopStep_slots_lt st op k hk]

theorem optCtxEvolves_some {a : EncoderContext} {y : Option EncoderContext}
    (h : optCtxEvolves (some a) y) : ∃ b, y = some b ∧ ctxEvolves a b := by
  cases y with
  | none => exact h.elim
  | some b => exact ⟨b, rfl, h⟩

theorem memAddrStep_rip_instrSize (st : EncoderState)
    (labelId base index0 address displacement : Int) (ul el : Bool)
    (c : EncoderContext) (hc : st.ctx = some c)
    (hbase : base = ZYDIS_REGISTER_RIP)
    (hsz : c.instrSize = 0 ∨ c.instrSize = kHintRequiresSize) :
    ∃ c', (memAddrStep st labelId base index0 address displacement ul el).2.ctx
      = some c' ∧ c'.instrSize = kHintRequiresSize := by
  have hno : ¬(base = ZYDIS_REGISTER_NONE ∧ index0 = ZYDIS_REGISTER_NONE) := by
    rintro ⟨h1, -⟩
    rw [hbase] at h1
    exact absurd h1 (by decide)
  unfold memAddrStep
  rw [if_neg hno, if_pos hbase]
  dsimp only
  split
  · show ∃ c', (memRipSizeCtx st.ctx).2 = some c' ∧ _
    rw [hc]
    unfold memRipSizeCtx
    dsimp only
    split
    · exact ⟨_, rfl, rfl⟩
    · rcases hsz with h | h
      · exact absurd h (by assumption)
      · exact ⟨c, rfl, h⟩
  · show ∃ c', (memRipSizeCtx st.ctx).2 = some c' ∧ _
    rw [hc]
    unfold memRipSizeCtx
    dsimp only
    split
    · exact ⟨_, rfl, rfl⟩
    · rcases hsz with h | h
      · exact absurd h (by assumption)
      · exact ⟨c, rfl, h⟩

theorem buildOperandMem_rip_instrSize (st : EncoderState) (m : Mem)
    (c : EncoderContext) (hc : st.ctx = some c)
    (hrip : opBecomesRip st.req.machineMode (Operand.mem m) = true)
    (hsz : c.instrSize = 0 ∨ c.instrSize = kHintRequiresSize) :
    ∃ c', (buildOperandMem st m).2.ctx = some c'
      ∧ c'.instrSize = kHintRequiresSize := by
  rw [buildOperandMem_ctx]
  have hev := memLabelStep_evolves st.ctx m.labelId m.displacement
  rw [hc] at hev
  obtain ⟨c1, hc1, he1⟩ := optCtxEvolves_some hev
  simp only [opBecomesRip, Bool.or_eq_true, Bool.and_eq_true, beq_iff_eq,
    bne_iff_ne, ne_eq] at hrip
  have hsz1 : c1.instrSize = 0 ∨ c1.instrSize = kHintRequiresSize := by
    rcases he1.2.2.2.2 with h | h
    · rw [h]; exact hsz
    · right; exact h.2
  have hc1' : ({ st with
      ctx := (memLabelStep st.ctx m.labelId m.displacement).2.2.2 }
        : EncoderState).ctx = some c1 := by
    show (memLabelStep st.ctx m.labelId m.displacement).2.2.2 = some c1
    rw [hc]; exact hc1
  rcases hrip with hbase | ⟨⟨⟨hmm64, hbase0⟩, hidx0⟩, hlbl⟩
  · have hcond : ¬(({ st with
        ctx := (memLabelStep st.ctx m.labelId m.displacement).2.2.2 }
          : EncoderState).req.machineMode = ZyMachineMode.long64
        ∧ m.base.id = ZYDIS_REGISTER_NONE ∧ m.index.id = ZYDIS_REGISTER_NONE
        ∧ (memLabelStep st.ctx m.labelId m.displacement).2.1 = true) := by
      rintro ⟨-, h1, -, -⟩
      rw [hbase] at h1
      exact absurd h1 (by decide)
    rw [if_neg hcond]
    exact memAddrStep_rip_instrSize _ _ _ _ _ _ _ _ c1 hc1' hbase hsz1
  · have hcond : (({ st with
        ctx := (memLabelStep st.ctx m.labelId m.displacement).2.2.2 }
          : EncoderState).req.machineMode = ZyMachineMode.long64
        ∧ m.base.id = ZYDIS_REGISTER_NONE ∧ m.index.id = ZYDIS_REGISTER_NONE
        ∧ (memLabelStep st.ctx m.labelId m.displacement).2.1 = true) :=
      ⟨hmm64, hbase0, hidx0, memLabelStep_usingLabel st.ctx _ _ hlbl⟩
    rw [if_pos hcond]
    exact memAddrStep_rip_instrSize _ _ _ _ _ _ _ _ c1 hc1' rfl hsz1

theorem buildOperandsLoop_branch (l : List Operand) (st : EncoderState)
    (h : st.operandIndex ≠ 0) :
    (buildOperandsLoop l st).req.branchType = st.req.branchType := by
  induction l generalizing st with
  | nil => rfl
  | cons op rest ih =>
    have hstep : (loopStep st op).req.branchType = st.req.branchType :=
      buildOperand_branch_of_ne st op h
    have hnext : (loopStep st op).operandIndex ≠ 0 := by
      rw [loopStep_operandIndex]; omega
    exact (ih (loopStep st op) hnext).trans hstep

theorem buildOperandsLoop_plain_reloc (l : List Operand) (st : EncoderState)
    (h : ∀ op ∈ l, plainOp op = true) :
    (buildOperandsLoop l st).relocKind = st.relocKind ∧
    (buildOperandsLoop l st).relocData = st.relocData ∧
    (buildOperandsLoop l st).relocLabel = st.relocLabel := by
  induction l generalizing st with
  | nil => exact ⟨rfl, rfl, rfl⟩
  | cons op rest ih =>
    have hstep := buildOperand_plain_reloc st op (h op (by simp))
    have hrest := ih (loopStep st op) (fun o ho => h o (by simp [ho]))
    exact ⟨hrest.1.trans hstep.1, hrest.2.1.trans hstep.2.1,
      hrest.2.2.trans hstep.2.2⟩

theorem buildOperandsLoop_relocCoh (l : List Operand) (st : EncoderState)
    (h : relocCoherent st) : relocCoherent (buildOperandsLoop l st) := by
  induction l generalizing st with
  | nil => exact h
  | cons op rest ih =>
    exact ih (loopStep st op) (buildOperand_relocCoh st op h)

theorem buildOperandsLoop_external_flag (l : List Operand) (st : EncoderState)
    (c : EncoderContext) (hc : st.ctx = some c)
    (h : ∀ op ∈ l, labelRefsExternalOnly c.program op = true) :
    ∃ c', (buildOperandsLoop l st).ctx = some c'
      ∧ c'.needsExtraPass = c.needsExtraPass := by
  induction l generalizing st c with
  | nil => exact ⟨c, hc, rfl⟩
  | cons op rest ih =>
    obtain ⟨c1, hc1, hflag1⟩ :=
      buildOperand_external_flag st op c hc (h op (by simp))
    have hev := loopStep_evolves st op
    rw [hc, loopStep_ctx, hc1] at hev
    have hprog : c1.program = c.program := hev.2.1
    obtain ⟨c2, hc2, hflag2⟩ := ih (loopStep st op) c1 (by rw [loopStep_ctx]; exact hc1)
      (fun o ho => by rw [hprog]; exact h o (by simp [ho]))
    exact ⟨c2, hc2, hflag2.trans hflag1⟩

theorem buildOperandsLoop_unresolved_flag (l : List Operand) (st : EncoderState)
    (c : EncoderContext) (hc : st.ctx = some c)
    (h : ∃ op ∈ l, unresolvedInternalLabel c.program c.labelAddress op = true) :
    ∃ c', (buildOperandsLoop l st).ctx = some c'
      ∧ c'.needsExtraPass = true := by
  induction l generalizing st c with
  | nil => simp at h
  | cons op rest ih =>
    obtain ⟨o, ho, huo⟩ := h
    rcases List.mem_cons.mp ho with rfl | ho
    · obtain ⟨c1, hc1, hflag1⟩ := buildOperand_unresolved_flag st o c hc huo
      have hev := buildOperandsLoop_evolves rest (loopStep st o)
      rw [loopStep_ctx, hc1] at hev
      obtain ⟨c2, hc2, he2⟩ := optCtxEvolves_some hev
      exact ⟨c2, hc2, he2.2.2.2.1 hflag1⟩
    · have hev := loopStep_evolves st op
      rw [hc] at hev
      obtain ⟨c1, hc1, he1⟩ := optCtxEvolves_some hev
      obtain ⟨c2, hc2, hflag2⟩ := ih (loopStep st op) c1 hc1
        ⟨o, ho, by rw [he1.2.1, he1.2.2.1]; exact huo⟩
      exact ⟨c2, hc2, hflag2⟩

theorem buildOperandsLoop_rip_instrSize (l : List Operand) (st : EncoderState)
    (c : EncoderContext) (hc : st.ctx = some c)
    (hsz : c.instrSize = 0 ∨ c.instrSize = kHintRequiresSize)
    (h : ∃ op ∈ l, opBecomesRip st.req.machineMode op = true) :
    ∃ c', (buildOperandsLoop l st).ctx = some c'
      ∧ c'.instrSize = kHintRequiresSize := by
  induction l generalizing st c with
  | nil => simp at h
  | cons op rest ih =>
    obtain ⟨o, ho, huo⟩ := h
    rcases List.mem_cons.mp ho with rfl | ho
    · cases o with
      | mem m =>
        obtain ⟨c1, hc1, hsz1⟩ := buildOperandMem_rip_instrSize st m c hc huo hsz
        have hev := buildOperandsLoop_evolves rest (loopStep st (Operand.mem m))
        rw [loopStep_ctx] at hev
        rw [show (buildOperand st (Operand.mem m)).2.ctx
            = (buildOperandMem st m).2.ctx from rfl, hc1] at hev
        obtain ⟨c2, hc2, he2⟩ := optCtxEvolves_some hev
        refine ⟨c2, hc2, ?_⟩
        rcases he2.2.2.2.2 with hx | hx
        · rw [hx]; exact hsz1
        · exact hx.2
      | none => simp [opBecomesRip] at huo
      | reg r => simp [opBecomesRip] at huo
      | imm i => simp [opBecomesRip] at huo
      | label lb => simp [opBecomesRip] at huo
    · have hev := loopStep_evolves st op
      rw [hc] at hev
      obtain ⟨c1, hc1, he1⟩ := optCtxEvolves_some hev
      have hsz1 : c1.instrSize = 0 ∨ c1.instrSize = kHintRequiresSize := by
        rcases he1.2.2.2.2 with hx | hx
        · rw [hx]; exact hsz
        · right; exact hx.2
      exact ih (loopStep st op) c1 hc1 hsz1
        ⟨o, ho, by rw [loopStep_machineMode]; exact huo⟩

theorem fixupIs4Operands_fields (req : ZydisEncoderRequest) :
    (fixupIs4Operands req).mnemonic = req.mnemonic ∧
    (fixupIs4Operands req).machineMode = req.machineMode ∧
    (fixupIs4Operands req).branchType = req.branchType := by
  unfold fixupIs4Operands
  dsimp only
  repeat' split
  all_goals exact ⟨rfl, rfl, rfl⟩

theorem initRequest_mnemonic (mode : MachineMode) (attribs : Attribs)
    (mnemonic : Mnemonic) : (initRequest mode attribs mnemonic).mnemonic = mnemonic := by
  unfold initRequest
  dsimp only
  repeat' split
  all_goals rfl

/-! ### Single-shot encode facts -/

theorem encode_eq (bE : ZydisEncoderRequest → Option Nat)
    (ctxO : Option EncoderContext) (mode : MachineMode) (attribs : Attribs)
    (m : Mnemonic) (numOps : Nat) (ops : List Operand) :
    encode_ bE ctxO mode attribs m numOps ops
      = match bE (prepareRequest ctxO mode attribs m numOps ops).req with
        | Option.none => .error .impossibleInstruction
        | some len =>
          .ok ({ length := len,
                 relocKind := (prepareRequest ctxO mode attribs m numOps ops).relocKind,
                 relocData := (prepareRequest ctxO mode attribs m numOps ops).relocData,
                 relocLabel := (prepareRequest ctxO mode attribs m numOps ops).relocLabel },
               (prepareRequest ctxO mode attribs m numOps ops).ctx) := rfl

theorem prepareRequest_ctx (ctxO : Option EncoderContext) (mode : MachineMode)
    (attribs : Attribs) (m : Mnemonic) (numOps : Nat) (ops : List Operand) :
    (prepareRequest ctxO mode attribs m numOps ops).ctx
      = (buildOperandsLoop (ops.take (min 5 numOps))
          { ctx := ctxO, req := initRequest mode attribs m }).ctx := rfl

theorem prepareRequest_reloc (ctxO : Option EncoderContext) (mode : MachineMode)
    (attribs : Attribs) (m : Mnemonic) (numOps : Nat) (ops : List Operand) :
    (prepareRequest ctxO mode attribs m numOps ops).relocKind
      = (buildOperandsLoop (ops.take (min 5 numOps))
          { ctx := ctxO, req := initRequest mode attribs m }).relocKind ∧
    (prepareRequest ctxO mode attribs m numOps ops).relocData
      = (buildOperandsLoop (ops.take (min 5 numOps))
          { ctx := ctxO, req := initRequest mode attribs m }).relocData ∧
    (prepareRequest ctxO mode attribs m numOps ops).relocLabel
      = (buildOperandsLoop (ops.take (min 5 numOps))
          { ctx := ctxO, req := initRequest mode attribs m }).relocLabel :=
  ⟨rfl, rfl, rfl⟩

theorem prepareRequest_branch (ctxO : Option EncoderContext) (mode : MachineMode)
    (attribs : Attribs) (m : Mnemonic) (numOps : Nat) (ops : List Operand) :
    (prepareRequest ctxO mode attribs m numOps ops).req.branchType
      = (buildOperandsLoop (ops.take (min 5 numOps))
          { ctx := ctxO, req := initRequest mode attribs m }).req.branchType :=
  (fixupIs4Operands_fields _).2.2

/-! ### Claim theorems -/

/-- C1: for a context-bound resolution of a control-flow mnemonic having both
a rel8 and a rel32 variant, with target `t` and context virtual address
`c.va`: if `|t − (va + rel8Size)| ≤ 127` the resolver returns displacement
`t − (va + rel8Size)` with branch type `SHORT`; otherwise, if
`|t − (va + rel32Size)| ≤ INT32_MAX`, it returns `t − (va + rel32Size)` with
branch type `NEAR` — the smallest viable encoding wins. -/
theorem processRelAddress_shortest_wins (m : Mnemonic) (c : EncoderContext)
    (t : Int)
    (h8 : (getEncodeVariantInfo m).canEncodeRel8 = true)
    (h32 : (getEncodeVariantInfo m).canEncodeRel32 = true) :
    ((t - (c.va + (getEncodeVariantInfo m).encodeSizeRel8)).natAbs ≤ 127 →
      processRelAddress (getEncodeVariantInfo m) (some c) t
        = (t - (c.va + (getEncodeVariantInfo m).encodeSizeRel8),
           BranchType.short)) ∧
    (127 < (t - (c.va + (getEncodeVariantInfo m).encodeSizeRel8)).natAbs →
      (t - (c.va + (getEncodeVariantInfo m).encodeSizeRel32)).natAbs
          ≤ 2147483647 →
      processRelAddress (getEncodeVariantInfo m) (some c) t
        = (t - (c.va + (getEncodeVariantInfo m).encodeSizeRel32),
           BranchType.near)) := by
  constructor
  · intro hle
    unfold processRelAddress getRelativeAddress
    dsimp only
    rw [if_pos h8, if_pos hle]
    rw [if_neg (fun hcc => nomatch hcc.1)]
  · intro hgt hle32
    unfold processRelAddress getRelativeAddress
    dsimp only
    rw [if_pos h8, if_neg (by omega :
      ¬(t - (c.va + (getEncodeVariantInfo m).encodeSizeRel8)).natAbs ≤ 127)]
    dsimp only
    rw [if_pos ⟨rfl, h32⟩, if_pos hle32]

/-- Witness for C1 at `JMP`, `va = 0x1000`, target `0x1002` (spec scenario
S1): displacement 0 with branch type `SHORT`. -/
theorem processRelAddress_shortest_wins_witness :
    processRelAddress (getEncodeVariantInfo Mnemonic.jmp)
      (some { va := 0x1000, instrSize := 0, program := { labels := [] },
              labelAddress := fun _ => Option.none, needsExtraPass := false })
      0x1002
      = (0, BranchType.short) := by
  have h := (processRelAddress_shortest_wins Mnemonic.jmp
    { va := 0x1000, instrSize := 0, program := { labels := [] },
      labelAddress := fun _ => Option.none, needsExtraPass := false }
    0x1002 (by decide) (by decide)).1 (by decide)
  simpa using h

/-- C10: for a context-bound build of a `JCXZ`/`JECXZ`/`JKNZD` control-flow
target whose operand 0 is an unresolved, non-external label, the placeholder
target `va + 0x44` yields `delta8 = 0x44 − 2 = 0x42 ≤ 127`, so the resolver
returns a `SHORT` branch with displacement `0x42` and its asserted
no-viable-encoding (`NONE`) branch is unreachable. -/
theorem shortOnly_unresolved_label_short (st : EncoderState) (src : Label)
    (c : EncoderContext) (hc : st.ctx = some c)
    (hm : st.req.mnemonic = Mnemonic.jcxz ∨ st.req.mnemonic = Mnemonic.jecxz
      ∨ st.req.mnemonic = Mnemonic.jknzd)
    (hidx : st.operandIndex = 0)
    (hext : isLabelExternal c.program src.id = false)
    (haddr : c.labelAddress src.id = Option.none) :
    (buildOperandLabel st src).1.immS = 0x42 ∧
    (buildOperandLabel st src).2.req.branchType = BranchType.short ∧
    (buildOperandLabel st src).2.req.branchType ≠ BranchType.none := by
  have hinfo : getEncodeVariantInfo st.req.mnemonic
      = { isControlFlow := true, encodeSizeRel8 := 2, encodeSizeRel32 := -1 } := by
    rcases hm with h | h | h <;> rw [h] <;> rfl
  have htmp : getTemporaryRel st = c.va + kTemporaryRel8Value := by
    have hb : isTempRel8Mnemonic st.req.mnemonic = true := by
      rcases hm with h | h | h <;> rw [h] <;> rfl
    unfold getTemporaryRel
    rw [if_pos hb, hc]
  have hres := resolveLabel_unresolved c src.id hext haddr
  have h42 : c.va + kTemporaryRel8Value - (c.va + (2 : Int)) = 0x42 := by
    unfold kTemporaryRel8Value
    ring
  unfold buildOperandLabel
  dsimp only
  rw [hc, hres]
  dsimp only
  rw [if_pos ⟨hidx, by rw [hinfo]⟩]
  dsimp only
  rw [htmp]
  unfold processRelAddress getRelativeAddress
  dsimp only
  rw [hinfo]
  simp only [Option.getD_none]
  rw [if_pos (by decide :
    ({ isControlFlow := true, encodeSizeRel8 := 2, encodeSizeRel32 := -1 }
      : EncodeVariantsInfo).canEncodeRel8 = true)]
  rw [h42]
  rw [if_pos (by decide : ((0x42 : Int)).natAbs ≤ 127)]
  rw [if_neg (fun hcc => nomatch hcc.1)]
  exact ⟨rfl, rfl, fun h => nomatch h⟩

/-- Witness for C10 at `JCXZ`, `va = 0x1000`, unresolved internal label 0. -/
theorem shortOnly_unresolved_label_short_witness :
    (buildOperandLabel
      { ctx := some ctxUnresolvedFix, req := { mnemonic := Mnemonic.jcxz } }
      { id := 0 }).1.immS = 0x42 := by
  have h := shortOnly_unresolved_label_short
    { ctx := some ctxUnresolvedFix, req := { mnemonic := Mnemonic.jcxz } }
    { id := 0 } ctxUnresolvedFix
    rfl (Or.inl rfl) rfl (by decide) rfl
  exact h.1

/-- The Label arm without a context on a control-flow target: the resolver
overrides the placeholder with the rel32 placeholder and a `NEAR` hint. -/
theorem buildOperandLabel_ctxfree_near (st : EncoderState) (src : Label)
    (hc : st.ctx = Option.none) (hidx : st.operandIndex = 0)
    (hcf : (getEncodeVariantInfo st.req.mnemonic).isControlFlow = true) :
    (buildOperandLabel st src).2.req.branchType = BranchType.near := by
  unfold buildOperandLabel
  dsimp only
  rw [hc]
  unfold resolveLabel
  dsimp only
  have hcond : st.operandIndex = 0
      ∧ (getEncodeVariantInfo st.req.mnemonic).isControlFlow = true := ⟨hidx, hcf⟩
  rw [if_pos hcond]
  unfold processRelAddress
  dsimp only
  rw [if_pos (by decide : BranchType.near ≠ BranchType.none)]

/-- Counterexample to C3's short-only exception: a context-free encode of
`JCXZ label` hands the byte-level encoder branch type `NEAR` with the rel32
placeholder immediate — not `SHORT`. -/
theorem ctxfree_jcxz_near_cex :
    (prepareRequest Option.none MachineMode.amd64 {} Mnemonic.jcxz 1
      [Operand.label { id := 0 }]).req.branchType = BranchType.near ∧
    ((prepareRequest Option.none MachineMode.amd64 {} Mnemonic.jcxz 1
      [Operand.label { id := 0 }]).req.operands.getD 0 {}).immS
        = kTemporaryRel32Value ∧
    BranchType.near ≠ BranchType.short :=
  ⟨rfl, rfl, by decide⟩

/-- C3 (amended): a context-free encode of a control-flow instruction whose
operand 0 is a label emits branch type `NEAR`, never `SHORT` — including the
short-only mnemonics, whose rel8 placeholder is overridden by the rel32
placeholder in the relative-address resolver. -/
theorem ctxfree_controlflow_label_near (mode : MachineMode) (attribs : Attribs)
    (m : Mnemonic) (numOps : Nat) (ops : List Operand) (l : Label)
    (hcf : (getEncodeVariantInfo m).isControlFlow = true)
    (hops : (ops.take (min 5 numOps)).head? = some (Operand.label l)) :
    (prepareRequest Option.none mode attribs m numOps ops).req.branchType
      = BranchType.near := by
  rw [prepareRequest_branch]
  cases htl : ops.take (min 5 numOps) with
  | nil => rw [htl] at hops; simp at hops
  | cons hd rest =>
    rw [htl] at hops
    rw [List.head?_cons, Option.some.injEq] at hops
    subst hops
    rw [show buildOperandsLoop (Operand.label l :: rest)
        { ctx := Option.none, req := initRequest mode attribs m }
        = buildOperandsLoop rest (loopStep
          { ctx := Option.none, req := initRequest mode attribs m }
          (Operand.label l)) from rfl]
    rw [buildOperandsLoop_branch rest _
      (by rw [loopStep_operandIndex]; omega)]
    show (buildOperandLabel
      { ctx := Option.none, req := initRequest mode attribs m } l).2.req.branchType
        = BranchType.near
    exact buildOperandLabel_ctxfree_near _ l rfl rfl
      (by rw [initRequest_mnemonic]; exact hcf)

/-- Witness for the amended C3 at `JCXZ label`, context-free. -/
theorem ctxfree_controlflow_label_near_witness :
    (prepareRequest Option.none MachineMode.i386 {} Mnemonic.loop 1
      [Operand.label { id := 0 }]).req.branchType = BranchType.near :=
  ctxfree_controlflow_label_near MachineMode.i386 {} Mnemonic.loop 1
    [Operand.label { id := 0 }] { id := 0 } (by decide) rfl

theorem prepareRequest_relocCoh (ctxO : Option EncoderContext)
    (mode : MachineMode) (attribs : Attribs) (m : Mnemonic) (numOps : Nat)
    (ops : List Operand) :
    (prepareRequest ctxO mode attribs m numOps ops).relocKind
        ≠ RelocationType.none →
    (prepareRequest ctxO mode attribs m numOps ops).relocData
        ≠ RelocationData.none := by
  have h0 : relocCoherent { ctx := ctxO, req := initRequest mode attribs m } :=
    fun hk => absurd rfl hk
  have hl := buildOperandsLoop_relocCoh (ops.take (min 5 numOps))
    { ctx := ctxO, req := initRequest mode attribs m } h0
  intro hk
  rw [(prepareRequest_reloc ctxO mode attribs m numOps ops).2.1]
  refine hl ?_
  rw [← (prepareRequest_reloc ctxO mode attribs m numOps ops).1]
  exact hk

theorem encode_relocCoh (bE : ZydisEncoderRequest → Option Nat)
    (ctxO : Option EncoderContext) (mode : MachineMode) (attribs : Attribs)
    (m : Mnemonic) (numOps : Nat) (ops : List Operand) (res : EncoderResult)
    (ctxOut : Option EncoderContext)
    (h : encode_ bE ctxO mode attribs m numOps ops = Except.ok (res, ctxOut)) :
    res.relocKind ≠ RelocationType.none → res.relocData ≠ RelocationData.none := by
  rw [encode_eq] at h
  cases hbe : bE (prepareRequest ctxO mode attribs m numOps ops).req with
  | none => rw [hbe] at h; exact absurd h (by simp)
  | some len =>
    rw [hbe] at h
    dsimp only at h
    rw [Except.ok.injEq, Prod.mk.injEq] at h
    obtain ⟨h1, -⟩ := h
    rw [← h1]
    exact prepareRequest_relocCoh ctxO mode attribs m numOps ops

theorem encodeWithContextLoop_relocCoh (bE : ZydisEncoderRequest → Option Nat)
    (mode : MachineMode) (attribs : Attribs) (m : Mnemonic) (numOps : Nat)
    (ops : List Operand) (fuel : Nat) (ctx : EncoderContext)
    (res : EncoderResult) (res' : EncoderResult) (ctx' : EncoderContext)
    (hres : res.relocKind ≠ RelocationType.none
      → res.relocData ≠ RelocationData.none)
    (h : encodeWithContextLoop bE mode attribs m numOps ops fuel ctx res
      = some (Except.ok (res', ctx'))) :
    res'.relocKind ≠ RelocationType.none
      → res'.relocData ≠ RelocationData.none := by
  induction fuel generalizing ctx res with
  | zero =>
    unfold encodeWithContextLoop at h
    split at h
    · rw [Option.some.injEq, Except.ok.injEq, Prod.mk.injEq] at h
      obtain ⟨rfl, -⟩ := h
      exact hres
    · exact absurd h (by simp)
  | succ fuel ih =>
    unfold encodeWithContextLoop at h
    split at h
    · rw [Option.some.injEq, Except.ok.injEq, Prod.mk.injEq] at h
      obtain ⟨rfl, -⟩ := h
      exact hres
    · dsimp only at h
      cases henc : encode_ bE
          (some { ctx with instrSize := (res.length : Int) })
          mode attribs m numOps ops with
      | error e => rw [henc] at h; exact absurd h (by simp)
      | ok p =>
        rw [henc] at h
        dsimp only at h
        exact ih _ _ (encode_relocCoh bE _ mode attribs m numOps ops p.1 p.2
          (by rw [henc])) h

/-- C7: every encode — context-free or context-bound — returns a result with
`relocKind ≠ None → relocData ≠ None` (invariant I1). -/
theorem relocKind_implies_relocData (bE : ZydisEncoderRequest → Option Nat)
    (ctxO : Option EncoderContext) (mode : MachineMode) (attribs : Attribs)
    (m : Mnemonic) (numOps : Nat) (ops : List Operand) (fuel : Nat)
    (c : EncoderContext) (res : EncoderResult) (ctxOut : Option EncoderContext)
    (c' : EncoderContext)
    (h : encode_ bE ctxO mode attribs m numOps ops = Except.ok (res, ctxOut)
      ∨ encodeWithContext bE fuel c mode attribs m numOps ops
          = some (Except.ok (res, c')))
    (hk : res.relocKind ≠ RelocationType.none) :
    res.relocData ≠ RelocationData.none := by
  rcases h with h | h
  · exact encode_relocCoh bE ctxO mode attribs m numOps ops res ctxOut h hk
  · unfold encodeWithContext at h
    dsimp only at h
    cases henc : encode_ bE (some { c with instrSize := 0 })
        mode attribs m numOps ops with
    | error e => rw [henc] at h; exact absurd h (by simp)
    | ok p =>
      rw [henc] at h
      dsimp only at h
      exact encodeWithContextLoop_relocCoh bE mode attribs m numOps ops fuel _
        p.1 res c'
        (encode_relocCoh bE _ mode attribs m numOps ops p.1 p.2 (by rw [henc]))
        h hk

/-- Witness for C7: `MOV reg, label` context-free records an `Abs/Immediate`
relocation, and the invariant instantiates there. -/
theorem relocKind_implies_relocData_witness :
    ({ length := 7, relocKind := RelocationType.abs,
       relocData := RelocationData.immediate, relocLabel := 0 }
      : EncoderResult).relocData ≠ RelocationData.none :=
  relocKind_implies_relocData (fun _ => some 7) Option.none MachineMode.amd64
    {} Mnemonic.mov 2 [Operand.reg { id := 50 }, Operand.label { id := 0 }] 0
    ctxUnresolvedFix
    { length := 7, relocKind := RelocationType.abs,
      relocData := RelocationData.immediate, relocLabel := 0 }
    Option.none ctxUnresolvedFix (Or.inl rfl) (by decide)

/-- C5: when some operand references a non-external label whose address
lookup fails, the call still succeeds (whenever the byte-level encoder
accepts the request) and `needsExtraPass` is `true` on the returned
context. -/
theorem unresolved_label_extra_pass (bE : ZydisEncoderRequest → Option Nat)
    (c : EncoderContext) (mode : MachineMode) (attribs : Attribs) (m : Mnemonic)
    (numOps : Nat) (ops : List Operand) (len : Nat)
    (hop : ∃ op ∈ ops.take (min 5 numOps),
      unresolvedInternalLabel c.program c.labelAddress op = true)
    (hbe : bE (prepareRequest (some c) mode attribs m numOps ops).req = some len) :
    ∃ res c', encode_ bE (some c) mode attribs m numOps ops
        = Except.ok (res, some c') ∧ c'.needsExtraPass = true := by
  obtain ⟨c', hc', hflag⟩ := buildOperandsLoop_unresolved_flag
    (ops.take (min 5 numOps))
    { ctx := some c, req := initRequest mode attribs m } c rfl hop
  rw [encode_eq, hbe]
  dsimp only
  rw [prepareRequest_ctx, hc']
  exact ⟨_, c', rfl, hflag⟩

/-- Witness for C5: `JMP label` with an unplaced internal label. -/
theorem unresolved_label_extra_pass_witness :
    ∃ res c', encode_ (fun _ => some 5) (some ctxUnresolvedFix)
        MachineMode.amd64 {} Mnemonic.jmp 1 [Operand.label { id := 0 }]
        = Except.ok (res, some c') ∧ c'.needsExtraPass = true :=
  unresolved_label_extra_pass (fun _ => some 5) ctxUnresolvedFix
    MachineMode.amd64 {} Mnemonic.jmp 1 [Operand.label { id := 0 }] 5
    ⟨Operand.label { id := 0 }, by decide, by decide⟩ rfl

/-- Counterexample to C4's relocation-descriptor half: a context-bound
`JMP externalLabel` leaves `needsExtraPass` untouched but also records no
relocation at all (`relocKind = None`). -/
theorem external_label_no_reloc_cex :
    encode_ (fun _ => some 5) (some ctxExternalFix) MachineMode.amd64 {}
      Mnemonic.jmp 1 [Operand.label { id := 0 }]
      = Except.ok ({ length := 5 }, some ctxExternalFix) ∧
    ({ length := 5 } : EncoderResult).relocKind = RelocationType.none ∧
    ctxExternalFix.needsExtraPass = false :=
  ⟨rfl, rfl, rfl⟩

/-- C4 (amended): operands referencing only `External` labels never change
`needsExtraPass`; a relocation descriptor is recorded only for the
`MOV`-immediate, absolute-memory and RIP-relative external-memory shapes
(a control-flow branch to an external label records none). -/
theorem external_labels_no_extra_pass (bE : ZydisEncoderRequest → Option Nat)
    (c : EncoderContext) (mode : MachineMode) (attribs : Attribs) (m : Mnemonic)
    (numOps : Nat) (ops : List Operand) (res : EncoderResult)
    (ctxOut : Option EncoderContext)
    (hext : ∀ op ∈ ops.take (min 5 numOps),
      labelRefsExternalOnly c.program op = true)
    (h : encode_ bE (some c) mode attribs m numOps ops
      = Except.ok (res, ctxOut)) :
    ∃ c', ctxOut = some c' ∧ c'.needsExtraPass = c.needsExtraPass := by
  obtain ⟨c', hc', hflag⟩ := buildOperandsLoop_external_flag
    (ops.take (min 5 numOps))
    { ctx := some c, req := initRequest mode attribs m } c rfl hext
  rw [encode_eq] at h
  cases hbe : bE (prepareRequest (some c) mode attribs m numOps ops).req with
  | none => rw [hbe] at h; exact absurd h (by simp)
  | some len =>
    rw [hbe] at h
    dsimp only at h
    rw [Except.ok.injEq, Prod.mk.injEq] at h
    obtain ⟨-, h2⟩ := h
    refine ⟨c', ?_, hflag⟩
    rw [← h2, prepareRequest_ctx, hc']

/-- Witness for the amended C4 at `JMP externalLabel`. -/
theorem external_labels_no_extra_pass_witness :
    ∃ c', some ctxExternalFix = some c'
      ∧ c'.needsExtraPass = ctxExternalFix.needsExtraPass :=
  external_labels_no_extra_pass (fun _ => some 5) ctxExternalFix
    MachineMode.amd64 {} Mnemonic.jmp 1 [Operand.label { id := 0 }]
    { length := 5 } (some ctxExternalFix) (by decide) rfl

theorem buildOperandsLoop_append (a b : List Operand) (st : EncoderState) :
    buildOperandsLoop (a ++ b) st = buildOperandsLoop b (buildOperandsLoop a st) := by
  induction a generalizing st with
  | nil => rfl
  | cons op rest ih => exact ih (loopStep st op)

theorem initRequest_operands (mode : MachineMode) (attribs : Attribs)
    (m : Mnemonic) :
    (initRequest mode attribs m).operands = List.replicate 5 {} := by
  unfold initRequest
  dsimp only
  repeat' split
  all_goals rfl

theorem loopStep_slot_self (st : EncoderState) (op : Operand)
    (h : st.operandIndex < st.req.operands.length) :
    (loopStep st op).req.operands[st.operandIndex]?
      = some (buildOperand st op).1 := by
  show ((buildOperand st op).2.req.operands.set
    (buildOperand st op).2.operandIndex (buildOperand st op).1)[st.operandIndex]?
      = some (buildOperand st op).1
  rw [(buildOperand_armInv st op).2.2.2.2.1,
    (buildOperand_armInv st op).2.2.2.2.2.2]
  exact List.getElem?_set_eq_of_lt _ h

/-- The `MOV` special case of the Label arm: with request operand 0 already
built as a register, a label immediate records the `Abs`/`Immediate`
relocation with the label's id. -/
theorem buildOperandLabel_mov_reloc (st : EncoderState) (src : Label)
    (hm : st.req.mnemonic = Mnemonic.mov)
    (h0 : (st.req.operands.getD 0 {}).type = ZyOperandType.register) :
    (buildOperandLabel st src).2.relocKind = RelocationType.abs ∧
    (buildOperandLabel st src).2.relocData = RelocationData.immediate ∧
    (buildOperandLabel st src).2.relocLabel = src.id := by
  have hcf : (getEncodeVariantInfo st.req.mnemonic).isControlFlow = false := by
    rw [hm]; rfl
  have hcond : ¬(st.operandIndex = 0
      ∧ (getEncodeVariantInfo st.req.mnemonic).isControlFlow = true) := by
    rintro ⟨-, h2⟩
    rw [hcf] at h2
    exact absurd h2 (by decide)
  have hnn : ¬(BranchType.none ≠ BranchType.none) := fun hcc => hcc rfl
  unfold buildOperandLabel
  dsimp only
  rw [if_neg hcond]
  dsimp only
  have hbm : isMovMnemonic st.req.mnemonic = true := by rw [hm]; rfl
  rw [if_neg hnn, if_pos hbm, if_pos h0]
  exact ⟨rfl, rfl, rfl⟩

/-- C6: a successful encode of `MOV` whose operand 0 is a register and whose
label operand is built at index ≥ 1 (all other operands being plain
register/immediate/absent slots) records `relocKind = Abs`,
`relocData = Immediate` and the label's id. -/
theorem mov_reg_label_reloc (bE : ZydisEncoderRequest → Option Nat)
    (ctxO : Option EncoderContext) (mode : MachineMode) (attribs : Attribs)
    (numOps : Nat) (ops : List Operand) (r : Reg) (l : Label)
    (mid post : List Operand) (res : EncoderResult)
    (ctxOut : Option EncoderContext)
    (hshape : ops.take (min 5 numOps)
      = Operand.reg r :: (mid ++ Operand.label l :: post))
    (hpost : ∀ op ∈ post, plainOp op = true)
    (h : encode_ bE ctxO mode attribs Mnemonic.mov numOps ops
      = Except.ok (res, ctxOut)) :
    res.relocKind = RelocationType.abs ∧
    res.relocData = RelocationData.immediate ∧
    res.relocLabel = l.id := by
  -- name the intermediate states of the operand loop
  set st0 : EncoderState :=
    { ctx := ctxO, req := initRequest mode attribs Mnemonic.mov } with hst0
  set st1 := loopStep st0 (Operand.reg r) with hst1
  set stM := buildOperandsLoop mid st1 with hstM
  set stL := loopStep stM (Operand.label l) with hstL
  -- the final reloc state of the built request
  have hloop : buildOperandsLoop (ops.take (min 5 numOps)) st0
      = buildOperandsLoop post stL := by
    rw [hshape]
    show buildOperandsLoop (mid ++ Operand.label l :: post) (loopStep st0 (Operand.reg r))
      = _
    rw [buildOperandsLoop_append]
    rfl
  -- facts needed by the Label arm at stM
  have hmn : stM.req.mnemonic = Mnemonic.mov := by
    rw [hstM, buildOperandsLoop_mnemonic, hst1, loopStep_mnemonic, hst0]
    exact initRequest_mnemonic mode attribs Mnemonic.mov
  have hlen0 : st0.req.operands.length = 5 := by
    rw [hst0]
    show (initRequest mode attribs Mnemonic.mov).operands.length = 5
    rw [initRequest_operands]
    rfl
  have hslot1 : st1.req.operands[0]? = some (buildOperand st0 (Operand.reg r)).1 := by
    rw [hst1]
    exact loopStep_slot_self st0 (Operand.reg r) (by rw [hlen0]; show 0 < 5; omega)
  have hslotM : stM.req.operands[0]? = some (buildOperand st0 (Operand.reg r)).1 := by
    rw [hstM, buildOperandsLoop_slots_lt mid st1 0
      (by rw [hst1, loopStep_operandIndex]; omega)]
    exact hslot1
  have h0 : (stM.req.operands.getD 0 {}).type = ZyOperandType.register := by
    rw [List.getD_eq_getElem?_getD, hslotM]
    rfl
  have harm := buildOperandLabel_mov_reloc stM l hmn h0
  have hpostrel := buildOperandsLoop_plain_reloc post stL hpost
  -- extract the result fields from the single-shot encode
  rw [encode_eq] at h
  cases hbe : bE (prepareRequest ctxO mode attribs Mnemonic.mov numOps ops).req with
  | none => rw [hbe] at h; exact absurd h (by simp)
  | some len =>
    rw [hbe] at h
    dsimp only at h
    rw [Except.ok.injEq, Prod.mk.injEq] at h
    obtain ⟨h1, -⟩ := h
    rw [← h1]
    refine ⟨?_, ?_, ?_⟩
    · show (prepareRequest ctxO mode attribs Mnemonic.mov numOps ops).relocKind = _
      rw [(prepareRequest_reloc ctxO mode attribs Mnemonic.mov numOps ops).1,
        ← hst0, hloop, hpostrel.1, hstL]
      exact (loopStep_reloc stM (Operand.label l)).1.trans harm.1
    · show (prepareRequest ctxO mode attribs Mnemonic.mov numOps ops).relocData = _
      rw [(prepareRequest_reloc ctxO mode attribs Mnemonic.mov numOps ops).2.1,
        ← hst0, hloop, hpostrel.2.1, hstL]
      exact (loopStep_reloc stM (Operand.label l)).2.1.trans harm.2.1
    · show (prepareRequest ctxO mode attribs Mnemonic.mov numOps ops).relocLabel = _
      rw [(prepareRequest_reloc ctxO mode attribs Mnemonic.mov numOps ops).2.2,
        ← hst0, hloop, hpostrel.2.2, hstL]
      exact (loopStep_reloc stM (Operand.label l)).2.2.trans harm.2.2

/-- Witness for C6 at a context-bound `MOV reg, label` with the label placed
at 0x5000. -/
theorem mov_reg_label_reloc_witness :
    ({ length := 7, relocKind := RelocationType.abs,
       relocData := RelocationData.immediate, relocLabel := 0 }
        : EncoderResult).relocKind = RelocationType.abs ∧
    ({ length := 7, relocKind := RelocationType.abs,
       relocData := RelocationData.immediate, relocLabel := 0 }
        : EncoderResult).relocData = RelocationData.immediate ∧
    ({ length := 7, relocKind := RelocationType.abs,
       relocData := RelocationData.immediate, relocLabel := 0 }
        : EncoderResult).relocLabel = (0 : Int) :=
  mov_reg_label_reloc (fun _ => some 7) (some ctxResolvedFix) MachineMode.amd64
    {} 2 [Operand.reg { id := 50 }, Operand.label { id := 0 }] { id := 50 }
    { id := 0 } [] []
    { length := 7, relocKind := RelocationType.abs,
      relocData := RelocationData.immediate, relocLabel := 0 }
    (some ctxResolvedFix) rfl (by simp) rfl

theorem memLabelStep_disp (ctx : Option EncoderContext) (labelId d : Int) :
    (memLabelStep ctx labelId d).1
      = d + (if labelId ≠ labelIdInvalid then
               match ctx with
               | some c =>
                 (match c.labelAddress labelId with
                  | some v => v
                  | Option.none => kTemporaryRel32Value)
               | Option.none => kTemporaryRel32Value
             else 0) := by
  unfold memLabelStep
  split
  · cases ctx with
    | none => rfl
    | some c =>
      dsimp only
      cases c.labelAddress labelId <;> rfl
  · dsimp only
    omega

theorem memLabelStep_ctx_cases (c : EncoderContext) (labelId d : Int) :
    (memLabelStep (some c) labelId d).2.2.2 = some c ∨
    (memLabelStep (some c) labelId d).2.2.2
      = some { c with needsExtraPass := true } := by
  unfold memLabelStep
  dsimp only
  split
  · cases c.labelAddress labelId with
    | none =>
      dsimp only
      split
      · right; rfl
      · left; rfl
    | some v => left; rfl
  · left; rfl

theorem memAddrStep_rip_disp (st : EncoderState)
    (labelId base index0 address displacement : Int) (ul el : Bool)
    (hbase : base = ZYDIS_REGISTER_RIP) :
    (memAddrStep st labelId base index0 address displacement ul el).1
      = displacement - (address + (memRipSizeCtx st.ctx).1) := by
  have hno : ¬(base = ZYDIS_REGISTER_NONE ∧ index0 = ZYDIS_REGISTER_NONE) := by
    rintro ⟨h1, -⟩
    rw [hbase] at h1
    exact absurd h1 (by decide)
  unfold memAddrStep
  rw [if_neg hno, if_pos hbase]

theorem buildOperandMem_disp (st : EncoderState) (src : Mem) :
    (buildOperandMem st src).1.memDisplacement
      = (memAddrStep
          { st with ctx := (memLabelStep st.ctx src.labelId src.displacement).2.2.2 }
          src.labelId
          (if ({ st with
                ctx := (memLabelStep st.ctx src.labelId src.displacement).2.2.2 }
                  : EncoderState).req.machineMode = ZyMachineMode.long64
              ∧ src.base.id = ZYDIS_REGISTER_NONE
              ∧ src.index.id = ZYDIS_REGISTER_NONE
              ∧ (memLabelStep st.ctx src.labelId src.displacement).2.1 = true then
            ZYDIS_REGISTER_RIP
          else src.base.id)
          src.index.id
          (match st.ctx with | some c => c.va | Option.none => 0)
          (memLabelStep st.ctx src.labelId src.displacement).1
          (memLabelStep st.ctx src.labelId src.displacement).2.1
          (memLabelStep st.ctx src.labelId src.displacement).2.2.1).1 := rfl

/-- C8: for a memory operand whose base ends up as `RIP`, the emitted
displacement is the accumulated displacement — source displacement plus label
VA when resolved, plus the rel32 placeholder when unresolved or without
context — minus `(va + instrSize)`, with `va` and `instrSize` taken from the
context (both 0 when the context is absent); and when a context is present
with `instrSize == 0`, the build sets `ctx.instrSize` to the `REQUIRES_SIZE`
sentinel (−1) to demand a re-encode. -/
theorem ripMem_displacement (st : EncoderState) (m : Mem) :
    (∀ c : EncoderContext, st.ctx = some c →
      opBecomesRip st.req.machineMode (Operand.mem m) = true →
      ((buildOperandMem st m).1.memDisplacement
          = m.displacement
            + (if m.labelId ≠ labelIdInvalid then
                 (match c.labelAddress m.labelId with
                  | some v => v
                  | Option.none => kTemporaryRel32Value)
               else 0)
            - (c.va + c.instrSize)) ∧
        (c.instrSize = 0 →
          ∃ c', (buildOperandMem st m).2.ctx = some c'
            ∧ c'.instrSize = kHintRequiresSize)) ∧
    (st.ctx = Option.none →
      opBecomesRip st.req.machineMode (Operand.mem m) = true →
      (buildOperandMem st m).1.memDisplacement
        = m.displacement
          + (if m.labelId ≠ labelIdInvalid then kTemporaryRel32Value else 0)
          - (0 + 0)) := by
  constructor
  · intro c hc hrip
    refine ⟨?_, fun h0 => buildOperandMem_rip_instrSize st m c hc hrip (Or.inl h0)⟩
    rw [buildOperandMem_disp]
    simp only [opBecomesRip, Bool.or_eq_true, Bool.and_eq_true, beq_iff_eq,
      bne_iff_ne, ne_eq] at hrip
    have hbase : (if ({ st with
          ctx := (memLabelStep st.ctx m.labelId m.displacement).2.2.2 }
            : EncoderState).req.machineMode = ZyMachineMode.long64
        ∧ m.base.id = ZYDIS_REGISTER_NONE ∧ m.index.id = ZYDIS_REGISTER_NONE
        ∧ (memLabelStep st.ctx m.labelId m.displacement).2.1 = true then
          ZYDIS_REGISTER_RIP
        else m.base.id) = ZYDIS_REGISTER_RIP := by
      rcases hrip with hb | ⟨⟨⟨hmm64, hbase0⟩, hidx0⟩, hlbl⟩
      · rw [hb]
        split <;> rfl
      · rw [if_pos ⟨hmm64, hbase0, hidx0,
          memLabelStep_usingLabel st.ctx _ _ hlbl⟩]
    rw [memAddrStep_rip_disp _ _ _ _ _ _ _ _ hbase, memLabelStep_disp]
    have haddr : (match st.ctx with
        | some c => c.va
        | Option.none => (0 : Int)) = c.va := by rw [hc]
    have hsz : (memRipSizeCtx ({ st with
        ctx := (memLabelStep st.ctx m.labelId m.displacement).2.2.2 }
          : EncoderState).ctx).1 = c.instrSize := by
      show (memRipSizeCtx (memLabelStep st.ctx m.labelId m.displacement).2.2.2).1
        = c.instrSize
      rw [hc]
      rcases memLabelStep_ctx_cases c m.labelId m.displacement with hx | hx <;>
        rw [hx] <;> rfl
    rw [haddr, hsz, hc]
  · intro hc hrip
    rw [buildOperandMem_disp]
    simp only [opBecomesRip, Bool.or_eq_true, Bool.and_eq_true, beq_iff_eq,
      bne_iff_ne, ne_eq] at hrip
    have hbase : (if ({ st with
          ctx := (memLabelStep st.ctx m.labelId m.displacement).2.2.2 }
            : EncoderState).req.machineMode = ZyMachineMode.long64
        ∧ m.base.id = ZYDIS_REGISTER_NONE ∧ m.index.id = ZYDIS_REGISTER_NONE
        ∧ (memLabelStep st.ctx m.labelId m.displacement).2.1 = true then
          ZYDIS_REGISTER_RIP
        else m.base.id) = ZYDIS_REGISTER_RIP := by
      rcases hrip with hb | ⟨⟨⟨hmm64, hbase0⟩, hidx0⟩, hlbl⟩
      · rw [hb]
        split <;> rfl
      · rw [if_pos ⟨hmm64, hbase0, hidx0,
          memLabelStep_usingLabel st.ctx _ _ hlbl⟩]
    rw [memAddrStep_rip_disp _ _ _ _ _ _ _ _ hbase, memLabelStep_disp]
    have haddr : (match st.ctx with
        | some c => c.va
        | Option.none => (0 : Int)) = 0 := by rw [hc]
    have hsz : (memRipSizeCtx ({ st with
        ctx := (memLabelStep st.ctx m.labelId m.displacement).2.2.2 }
          : EncoderState).ctx).1 = 0 := by
      show (memRipSizeCtx (memLabelStep st.ctx m.labelId m.displacement).2.2.2).1 = 0
      rw [hc]
      unfold memLabelStep
      split
      · rfl
      · rfl
    rw [haddr, hsz, hc]

/-- Witness for C8: `[label]` on AMD64 with an unresolved internal label at
`va = 0x1000`, `instrSize = 0`: displacement `0x123456 − 0x1000 = 1188950`
and the context is flagged `REQUIRES_SIZE`. -/
theorem ripMem_displacement_witness :
    (buildOperandMem { ctx := some ctxUnresolvedFix }
      { base := { id := 0 }, index := { id := 0 }, scale := 0, byteSize := 8,
        displacement := 0, labelId := 0,
        segment := { id := 0 } }).1.memDisplacement = 1188950 ∧
    ∃ c', (buildOperandMem { ctx := some ctxUnresolvedFix }
      { base := { id := 0 }, index := { id := 0 }, scale := 0, byteSize := 8,
        displacement := 0, labelId := 0,
        segment := { id := 0 } }).2.ctx = some c'
      ∧ c'.instrSize = kHintRequiresSize := by
  have h := (ripMem_displacement { ctx := some ctxUnresolvedFix }
    { base := { id := 0 }, index := { id := 0 }, scale := 0, byteSize := 8,
      displacement := 0, labelId := 0, segment := { id := 0 } }).1
    ctxUnresolvedFix rfl (by decide)
  refine ⟨?_, h.2 rfl⟩
  rw [h.1]
  decide

theorem prepareRequest_ctx_evolves (mode : MachineMode) (attribs : Attribs)
    (m : Mnemonic) (numOps : Nat) (ops : List Operand) (c0 : EncoderContext) :
    ∃ c', (prepareRequest (some c0) mode attribs m numOps ops).ctx = some c'
      ∧ ctxEvolves c0 c' := by
  rw [prepareRequest_ctx]
  exact optCtxEvolves_some (buildOperandsLoop_evolves (ops.take (min 5 numOps))
    { ctx := some c0, req := initRequest mode attribs m })

theorem encode_ctx_evolves (bE : ZydisEncoderRequest → Option Nat)
    (mode : MachineMode) (attribs : Attribs) (m : Mnemonic) (numOps : Nat)
    (ops : List Operand) (c0 : EncoderContext) (res : EncoderResult)
    (ctxOut : Option EncoderContext)
    (h : encode_ bE (some c0) mode attribs m numOps ops
      = Except.ok (res, ctxOut)) :
    ∃ c', ctxOut = some c' ∧ ctxEvolves c0 c' := by
  rw [encode_eq] at h
  cases hbe : bE (prepareRequest (some c0) mode attribs m numOps ops).req with
  | none => rw [hbe] at h; exact absurd h (by simp)
  | some len =>
    rw [hbe] at h
    dsimp only at h
    rw [Except.ok.injEq, Prod.mk.injEq] at h
    obtain ⟨-, h2⟩ := h
    obtain ⟨c', hc', he⟩ := prepareRequest_ctx_evolves mode attribs m numOps ops c0
    exact ⟨c', by rw [← h2]; exact hc', he⟩

theorem encodeWithContextLoop_frame (bE : ZydisEncoderRequest → Option Nat)
    (mode : MachineMode) (attribs : Attribs) (m : Mnemonic) (numOps : Nat)
    (ops : List Operand) (fuel : Nat) (ctx : EncoderContext)
    (res res' : EncoderResult) (ctx' : EncoderContext)
    (h : encodeWithContextLoop bE mode attribs m numOps ops fuel ctx res
      = some (Except.ok (res', ctx'))) :
    ctx'.va = ctx.va
      ∧ (ctx.needsExtraPass = true → ctx'.needsExtraPass = true) := by
  induction fuel generalizing ctx res with
  | zero =>
    unfold encodeWithContextLoop at h
    split at h
    · rw [Option.some.injEq, Except.ok.injEq, Prod.mk.injEq] at h
      obtain ⟨-, rfl⟩ := h
      exact ⟨rfl, fun hf => hf⟩
    · exact absurd h (by simp)
  | succ fuel ih =>
    unfold encodeWithContextLoop at h
    split at h
    · rw [Option.some.injEq, Except.ok.injEq, Prod.mk.injEq] at h
      obtain ⟨-, rfl⟩ := h
      exact ⟨rfl, fun hf => hf⟩
    · dsimp only at h
      cases henc : encode_ bE
          (some { ctx with instrSize := (res.length : Int) })
          mode attribs m numOps ops with
      | error e => rw [henc] at h; exact absurd h (by simp)
      | ok p =>
        rw [henc] at h
        dsimp only at h
        obtain ⟨c2, hc2, he2⟩ := encode_ctx_evolves bE mode attribs m numOps ops
          _ p.1 p.2 (by rw [henc])
        rw [show p = (p.1, p.2) from rfl, hc2] at h
        simp only [Option.getD_some] at h
        -- the post-step instrSize adjustment preserves va and the flag
        set c3 := (if ((p.1).length : Int) ≠ c2.instrSize then
            { c2 with instrSize := kHintRequiresSize } else c2) with hsplit
        have hva3 : c3.va = c2.va := by
          rw [hsplit]; split <;> rfl
        have hfl3 : c2.needsExtraPass = true → c3.needsExtraPass = true := by
          rw [hsplit]; split <;> exact fun hf => hf
        obtain ⟨hva, hfl⟩ := ih _ _ h
        refine ⟨?_, ?_⟩
        · rw [hva, hva3, he2.1]
        · intro hf
          exact hfl (hfl3 (he2.2.2.2.1 hf))

/-- C9: across one context-bound encode call, `ctx.va` is never modified and
`ctx.needsExtraPass` is monotone — it may be set to `true` but is never
cleared, so once set during the pass it is still set at return. -/
theorem encodeWithContext_frame (bE : ZydisEncoderRequest → Option Nat)
    (fuel : Nat) (c : EncoderContext) (mode : MachineMode) (attribs : Attribs)
    (m : Mnemonic) (numOps : Nat) (ops : List Operand) (res : EncoderResult)
    (c' : EncoderContext)
    (h : encodeWithContext bE fuel c mode attribs m numOps ops
      = some (Except.ok (res, c'))) :
    c'.va = c.va
      ∧ (c.needsExtraPass = true → c'.needsExtraPass = true) := by
  unfold encodeWithContext at h
  dsimp only at h
  cases henc : encode_ bE (some { c with instrSize := 0 })
      mode attribs m numOps ops with
  | error e => rw [henc] at h; exact absurd h (by simp)
  | ok p =>
    rw [henc] at h
    dsimp only at h
    obtain ⟨c1, hc1, he1⟩ := encode_ctx_evolves bE mode attribs m numOps ops
      _ p.1 p.2 (by rw [henc])
    rw [show p = (p.1, p.2) from rfl, hc1] at h
    dsimp only at h
    obtain ⟨hva, hfl⟩ := encodeWithContextLoop_frame bE mode attribs m numOps
      ops fuel c1 p.1 res c' h
    exact ⟨by rw [hva, he1.1], fun hf => hfl (he1.2.2.2.1 hf)⟩

/-- Witness for C9: a context-bound `JMP 0x1002` at `va = 0x1000`. -/
theorem encodeWithContext_frame_witness :
    ({ ctxUnresolvedFix with instrSize := 0 } : EncoderContext).va
        = ctxUnresolvedFix.va
      ∧ (ctxUnresolvedFix.needsExtraPass = true →
          ({ ctxUnresolvedFix with instrSize := 0 }
            : EncoderContext).needsExtraPass = true) :=
  encodeWithContext_frame (fun _ => some 2) 3 ctxUnresolvedFix
    MachineMode.amd64 {} Mnemonic.jmp 1 [Operand.imm { value := 0x1002 }]
    { length := 2 } { ctxUnresolvedFix with instrSize := 0 } rfl

/-- C2: for a context-bound encode containing a RIP-relative memory operand,
the re-encode loop terminates — under the byte-level encoder's contract that
the encoded length is positive and does not depend on the instruction-size
value fed back through the context — and on exit the returned result
satisfies `res.length == ctx.instrSize`. -/
theorem rip_size_convergence (bE : ZydisEncoderRequest → Option Nat)
    (c : EncoderContext) (mode : MachineMode) (attribs : Attribs) (m : Mnemonic)
    (numOps : Nat) (ops : List Operand) (L fuel : Nat)
    (hfuel : 1 ≤ fuel) (hL : 0 < L)
    (hLen : ∀ (s : Int) (b : Bool),
      bE (prepareRequest (some
          { va := c.va, instrSize := s, program := c.program,
            labelAddress := c.labelAddress, needsExtraPass := b })
          mode attribs m numOps ops).req = some L)
    (hRip : ∃ op ∈ ops.take (min 5 numOps),
      opBecomesRip (initRequest mode attribs m).machineMode op = true) :
    ∃ res c', encodeWithContext bE fuel c mode attribs m numOps ops
        = some (Except.ok (res, c'))
      ∧ (res.length : Int) = c'.instrSize := by
  have hcanon : ∀ c1 : EncoderContext, c1.va = c.va → c1.program = c.program →
      c1.labelAddress = c.labelAddress →
      bE (prepareRequest (some c1) mode attribs m numOps ops).req = some L := by
    intro c1 hva hprog haddr
    have hx : c1 =
        { va := c.va, instrSize := c1.instrSize, program := c.program,
          labelAddress := c.labelAddress,
          needsExtraPass := c1.needsExtraPass } := by
      rw [← hva, ← hprog, ← haddr]
    rw [hx]
    exact hLen c1.instrSize c1.needsExtraPass
  have hbe0 : bE (prepareRequest (some ({ c with instrSize := 0 }
      : EncoderContext)) mode attribs m numOps ops).req = some L :=
    hcanon _ rfl rfl rfl
  -- the first encode demands a size (RIP-relative operand, instrSize = 0)
  obtain ⟨c1, hc1, he1⟩ := prepareRequest_ctx_evolves mode attribs m numOps ops
    { c with instrSize := 0 }
  have hsz1 : c1.instrSize = kHintRequiresSize := by
    obtain ⟨c1', hc1', hsz'⟩ := buildOperandsLoop_rip_instrSize
      (ops.take (min 5 numOps))
      { ctx := some ({ c with instrSize := 0 } : EncoderContext),
        req := initRequest mode attribs m }
      { c with instrSize := 0 } rfl (Or.inl rfl) hRip
    rw [prepareRequest_ctx] at hc1
    rw [hc1] at hc1'
    rw [Option.some.injEq] at hc1'
    rw [hc1']
    exact hsz'
  unfold encodeWithContext
  dsimp only
  rw [encode_eq, hbe0]
  dsimp only
  rw [hc1]
  simp only [Option.getD_some]
  cases fuel with
  | zero => omega
  | succ fuel =>
    unfold encodeWithContextLoop
    rw [if_neg (fun hgg => hgg hsz1)]
    dsimp only
    have hbe1 : bE (prepareRequest (some ({ c1 with instrSize := (L : Int) }
        : EncoderContext)) mode attribs m numOps ops).req = some L :=
      hcanon _ he1.1 he1.2.1 he1.2.2.1
    rw [encode_eq, hbe1]
    dsimp only
    obtain ⟨c2, hc2, he2⟩ := prepareRequest_ctx_evolves mode attribs m numOps
      ops { c1 with instrSize := (L : Int) }
    rw [hc2]
    simp only [Option.getD_some]
    have hsz2 : c2.instrSize = (L : Int) := by
      rcases he2.2.2.2.2 with hx | hx
      · exact hx
      · have hz : (L : Int) = 0 := hx.1
        omega
    rw [if_neg (fun hgg => hgg hsz2.symm)]
    unfold encodeWithContextLoop
    rw [if_pos (show c2.instrSize ≠ kHintRequiresSize by
      rw [hsz2]; unfold kHintRequiresSize; omega)]
    exact ⟨_, c2, rfl, hsz2.symm⟩

/-- Witness for C2: `MOV reg, [label]` on AMD64 with an unresolved internal
label and a byte-level encoder of constant length 7. -/
theorem rip_size_convergence_witness :
    ∃ res c', encodeWithContext (fun _ => some 7) 2 ctxUnresolvedFix
        MachineMode.amd64 {} Mnemonic.mov 2
        [Operand.reg { id := 50 },
         Operand.mem
           { base := { id := 0 }, index := { id := 0 }, scale := 0,
             byteSize := 8, displacement := 0, labelId := 0,
             segment := { id := 0 } }]
        = some (Except.ok (res, c'))
      ∧ (res.length : Int) = c'.instrSize :=
  rip_size_convergence (fun _ => some 7) ctxUnresolvedFix MachineMode.amd64
    {} Mnemonic.mov 2
    [Operand.reg { id := 50 },
     Operand.mem
       { base := { id := 0 }, index := { id := 0 }, scale := 0,
         byteSize := 8, displacement := 0, labelId := 0,
         segment := { id := 0 } }]
    7 2 (by omega) (by omega) (fun _ _ => rfl)
    ⟨Operand.mem
       { base := { id := 0 }, index := { id := 0 }, scale := 0,
         byteSize := 8, displacement := 0, labelId := 0,
         segment := { id := 0 } },
     by simp, by decide⟩

end Zasm
